import Mathlib

/-!
Verification of the matchup-coach statistics pipeline.

This file gives a shallow embedding of the parts of the repository that the
verified properties are about:

* the JavaScript `Map` operations used throughout (insertion-ordered
  association lists: `set` replaces in place, otherwise appends);
* the champion-name normalisation helpers from `src/data/champions.ts`;
* the match-telemetry aggregator of `src/scripts/scrapeMatchups.ts`
  (`applySide`, the per-match processing loop, bucket
  serialisation/deserialisation for checkpoints, and the finalize step);
* the `DualWindowRateLimiter` of `src/scripts/scrapeMatchups.ts`;
* the `RiotApiClient` request/retry/cooldown logic of
  `src/services/riotApiClient.ts`;
* the two cache-store backends (`PostgresMatchupStatsRepository` and the
  SQLite `MatchupStatsRepository`) and the `MissingPairBackfillService`.

JavaScript numbers are modelled as `Nat`/`Int`/`ℚ` as appropriate; the
dynamic `typeof` guards of the source become `Option` fields or stay as
explicit comparisons.
-/

/-- Lookup in a JavaScript `Map` / keyed association list (`map.get(k)`). -/
def jsGet [DecidableEq α] (l : List (α × β)) (k : α) : Option β :=
  match l with
  | [] => none
  | (k', v) :: rest => if k' = k then some v else jsGet rest k

/-- JavaScript `map.set(k, v)`: replaces the value of an existing key in
place (keeping insertion order), otherwise appends the new entry. -/
def jsSet [DecidableEq α] (l : List (α × β)) (k : α) (v : β) : List (α × β) :=
  match l with
  | [] => [(k, v)]
  | (k', v') :: rest => if k' = k then (k, v) :: rest else (k', v') :: jsSet rest k v

/-- `increment` from `scrapeMatchups.ts`: `map.set(key, (map.get(key) ?? 0) + 1)`. -/
def increment [DecidableEq α] (m : List (α × Nat)) (key : α) : List (α × Nat) :=
  jsSet m key ((jsGet m key).getD 0 + 1)

/-- The keys of an association list. -/
def jsKeys (l : List (α × β)) : List α := l.map Prod.fst

/-- JavaScript `new Map(entries)`: inserts the entries in order, later
duplicates overriding earlier ones. -/
def mapFromEntries [DecidableEq α] (l : List (α × β)) : List (α × β) :=
  l.foldl (fun m e => jsSet m e.1 e.2) []

/-- The five supported lanes of `src/data/champions.ts` (`SUPPORTED_LANES`). -/
inductive Lane where
  | top
  | jungle
  | mid
  | adc
  | support
deriving DecidableEq, Repr

/-- Modelled from the spec: `RIOT_TEAM_POSITION_BY_LANE` (its defining module
entry is not part of the provided sources; the spec says lane pairings are
identified "by role tag", the standard Riot team-position tags). The claims
proved below depend only on this being a fixed per-lane tag. -/
def RIOT_TEAM_POSITION_BY_LANE : Lane → String
  | .top => "TOP"
  | .jungle => "JUNGLE"
  | .mid => "MIDDLE"
  | .adc => "BOTTOM"
  | .support => "UTILITY"

/-- JavaScript `String.prototype.trim()`, modelled over the character list:
drop whitespace from both ends. -/
def jsTrim (s : String) : String :=
  String.mk (((s.data.dropWhile Char.isWhitespace).reverse.dropWhile Char.isWhitespace).reverse)

/-- JavaScript `String.prototype.toLowerCase()`, modelled over the character
list (champion names are ASCII). -/
def jsToLower (s : String) : String :=
  String.mk (s.data.map Char.toLower)

/-- JavaScript `String.prototype.startsWith(p)`, modelled over the character
list. -/
def jsStartsWith (s p : String) : Bool :=
  p.data.isPrefixOf s.data

/-- `championKey` from `src/data/champions.ts`: trim, lowercase, and strip
every character outside `a-z0-9`. -/
def championKey (raw : String) : String :=
  String.mk ((jsToLower (jsTrim raw)).data.filter
    (fun c => (('a' ≤ c) && (c ≤ 'z')) || (('0' ≤ c) && (c ≤ '9'))))

/-- `CHAMPION_ALIASES` from `src/data/champions.ts`. -/
def CHAMPION_ALIASES : List (String × String) :=
  [("ksante", "K'Sante"),
   ("drmundo", "Dr. Mundo"),
   ("nunuandwillump", "Nunu & Willump"),
   ("nunu", "Nunu & Willump"),
   ("wukong", "Wukong"),
   ("monkeyking", "Wukong")]

/-- `normalizeChampionName` from `src/data/champions.ts`: trim, then apply the
alias table keyed by `championKey`; an unknown name is kept trimmed.
The source alias record lists keys `ksante`, `k'sante` and `k sante` (and
`drmundo`/`dr mundo`, `nunuandwillump`/`nunu`), but lookups go through
`championKey`, under which those alternates collapse to the keys kept here. -/
def normalizeChampionName (raw : String) : String :=
  let trimmed := jsTrim raw
  if trimmed = "" then ""
  else
    match jsGet CHAMPION_ALIASES (championKey trimmed) with
    | some aliasName => aliasName
    | none => trimmed

/-- One Riot match participant, restricted to the fields the aggregator reads.
`keystoneId` stands for `perks.styles[0].selections[0].perk` (absent when the
source's `typeof` guard fails); `item0` is the first-item slot. -/
structure Participant where
  participantId : Int
  teamPosition : String
  championName : String
  win : Bool
  keystoneId : Option Int
  item0 : Int
deriving DecidableEq, Repr

/-- One timeline event, restricted to the fields the aggregator reads. -/
structure TimelineEvent where
  type : String
  timestamp : Int
  killerId : Int
deriving DecidableEq, Repr

/-- One timeline frame: its timestamp, the per-participant `totalGold` of its
`participantFrames`, and its events. -/
structure Frame where
  timestamp : Int
  participantFrames : List (Int × Int)
  events : List TimelineEvent
deriving DecidableEq, Repr

/-- The parts of a fetched match + timeline pair that the processing loop of
`scrapeMatchups.ts` reads. -/
structure MatchData where
  gameVersion : String
  participants : List Participant
  frames : List Frame
deriving DecidableEq, Repr

/-- `AggregationBucket` from `scrapeMatchups.ts` (rune/item maps as
insertion-ordered association lists, the embedding of JS `Map`). -/
structure AggregationBucket where
  games : Nat
  wins : Nat
  totalGoldDiff15 : Int
  pre6Kills : Nat
  pre6Deaths : Nat
  runes : List (Int × Nat)
  items : List (Int × Nat)
deriving DecidableEq, Repr

/-- The fresh bucket literal of `applySide`. -/
def emptyBucket : AggregationBucket :=
  { games := 0, wins := 0, totalGoldDiff15 := 0, pre6Kills := 0, pre6Deaths := 0,
    runes := [], items := [] }

/-- The bucket key `patch:lane:player:enemy`, modelled structurally (the
colon-joined string key of the source is injective on colon-free components,
and champion names and patch strings contain no colon). -/
structure BucketKey where
  patch : String
  lane : Lane
  player : String
  enemy : String
deriving DecidableEq, Repr

/-- The transient bucket map of one scrape job. -/
abbrev BucketMap := List (BucketKey × AggregationBucket)

/-- The pre-6-minute kill counter of the processing loop: over all frames,
count `CHAMPION_KILL` events with `timestamp ≤ 360000`, keyed by `killerId`
(when positive). -/
def pre6KillsByParticipant (frames : List Frame) : List (Int × Nat) :=
  frames.foldl
    (fun acc frame =>
      frame.events.foldl
        (fun acc event =>
          if event.type = "CHAMPION_KILL" ∧ event.timestamp ≤ 360000 ∧ 0 < event.killerId then
            increment acc event.killerId
          else acc)
        acc)
    []

/-- `applySide` from `scrapeMatchups.ts`: fold one directed view of a lane
pairing into the bucket map. `pFrames` is the `participantFrames` gold map of
the first frame at or after minute 15; `kills` is `pre6KillsByParticipant`. -/
def applySide (patch : String) (pFrames : List (Int × Int)) (kills : List (Int × Nat))
    (buckets : BucketMap) (lane : Lane) (player enemy : Participant)
    (playerName enemyName : String) : BucketMap :=
  let key : BucketKey := ⟨patch, lane, playerName, enemyName⟩
  let b0 := (jsGet buckets key).getD emptyBucket
  let b1 := { b0 with games := b0.games + 1 }
  let b2 := if player.win then { b1 with wins := b1.wins + 1 } else b1
  let b3 :=
    match jsGet pFrames player.participantId, jsGet pFrames enemy.participantId with
    | some playerGold, some enemyGold =>
        { b2 with totalGoldDiff15 := b2.totalGoldDiff15 + (playerGold - enemyGold) }
    | _, _ => b2
  let b4 := { b3 with
    pre6Kills := b3.pre6Kills + (jsGet kills player.participantId).getD 0,
    pre6Deaths := b3.pre6Deaths + (jsGet kills enemy.participantId).getD 0 }
  let b5 :=
    match player.keystoneId with
    | some keystone => { b4 with runes := increment b4.runes keystone }
    | none => b4
  let b6 := if 0 < player.item0 then { b5 with items := increment b5.items player.item0 } else b5
  jsSet buckets key b6

/-- One lane of the per-match loop: filter participants to the lane's team
position; when exactly two remain, normalise both champion names and, if both
are nonempty and distinct, apply both directed sides. -/
def processLane (patch : String) (pFrames : List (Int × Int)) (kills : List (Int × Nat))
    (participants : List Participant) (buckets : BucketMap) (lane : Lane) : BucketMap :=
  let lanePlayers := participants.filter
    (fun p => p.teamPosition = RIOT_TEAM_POSITION_BY_LANE lane)
  match lanePlayers with
  | [left, right] =>
    let leftChampionName := normalizeChampionName left.championName
    let rightChampionName := normalizeChampionName right.championName
    if leftChampionName = "" ∨ rightChampionName = "" ∨ leftChampionName = rightChampionName then
      buckets
    else
      applySide patch pFrames kills
        (applySide patch pFrames kills buckets lane left right leftChampionName rightChampionName)
        lane right left rightChampionName leftChampionName
  | _ => buckets

/-- The processing-phase body for one match of `scrapeMatchups.ts` `main`:
reject a game version that does not start with the Riot patch head
(`riotPatchHead` is what the source computes once before the loop), pick the
gold frame at or after minute 15, count pre-6 kills, and fold every requested
lane's pairing into the bucket map. -/
def processMatch (patch riotPatchHead : String) (lanes : List Lane)
    (buckets : BucketMap) (md : MatchData) : BucketMap :=
  if !(jsStartsWith md.gameVersion riotPatchHead) then buckets
  else
    let frame15 := md.frames.find? (fun f => decide ((900000 : Int) ≤ f.timestamp))
    let pFrames := match frame15 with
      | some f => f.participantFrames
      | none => []
    let kills := pre6KillsByParticipant md.frames
    lanes.foldl (processLane patch pFrames kills md.participants) buckets

/-- The whole processing phase over a match list. -/
def runMatches (patch riotPatchHead : String) (lanes : List Lane)
    (buckets : BucketMap) (ms : List MatchData) : BucketMap :=
  ms.foldl (processMatch patch riotPatchHead lanes) buckets

/-- `SerializedAggregationBucket` from `scrapeMatchups.ts`: the checkpoint
form of one bucket (`Map` entries spread into arrays). -/
structure SerializedAggregationBucket where
  games : Nat
  wins : Nat
  totalGoldDiff15 : Int
  pre6Kills : Nat
  pre6Deaths : Nat
  runes : List (Int × Nat)
  items : List (Int × Nat)
deriving DecidableEq, Repr

/-- `serializeBuckets` from `scrapeMatchups.ts`: a JS record preserves the
map's entry order and unique keys. -/
def serializeBuckets (buckets : BucketMap) : List (BucketKey × SerializedAggregationBucket) :=
  buckets.map (fun e =>
    (e.1,
     { games := e.2.games, wins := e.2.wins, totalGoldDiff15 := e.2.totalGoldDiff15,
       pre6Kills := e.2.pre6Kills, pre6Deaths := e.2.pre6Deaths,
       runes := e.2.runes, items := e.2.items }))

/-- `deserializeBuckets` from `scrapeMatchups.ts`: rebuild the bucket map by
`map.set` over the serialized entries, rebuilding the rune/item maps with
`new Map(entries)`. -/
def deserializeBuckets (raw : List (BucketKey × SerializedAggregationBucket)) : BucketMap :=
  raw.foldl
    (fun m e =>
      jsSet m e.1
        { games := e.2.games, wins := e.2.wins, totalGoldDiff15 := e.2.totalGoldDiff15,
          pre6Kills := e.2.pre6Kills, pre6Deaths := e.2.pre6Deaths,
          runes := mapFromEntries e.2.runes, items := mapFromEntries e.2.items })
    []

/-- JS `Number(x.toFixed(3))` for the nonnegative rates of the finalize step:
round to the nearest thousandth, ties toward the larger value. -/
def round3 (q : ℚ) : ℚ := ((round (q * 1000) : ℤ) : ℚ) / 1000

/-- One finalized usage entry (`keystoneId`/`itemId`, count, pct). -/
structure UsageEntry where
  id : Int
  count : Nat
  pct : ℚ
deriving DecidableEq, Repr

/-- `MatchupStats` from `src/types/stats.ts` with JS numbers as exact
rationals/integers. -/
structure MatchupStats where
  patch : String
  games : Nat
  winRate : ℚ
  goldDiff15 : ℤ
  pre6KillRate : ℚ
  earlyDeathRate : ℚ
  runeUsage : List UsageEntry
  firstItemUsage : List UsageEntry
  computedAt : String
deriving DecidableEq, Repr

/-- The `.sort((a, b) => b[1] - a[1])` of the finalize step: stable sort by
count, descending. -/
def sortByCountDesc (l : List (Int × Nat)) : List (Int × Nat) :=
  l.mergeSort (fun a b => b.2 ≤ a.2)

/-- The finalize step of `scrapeMatchups.ts` `main` (lines building `rows`):
collapse one bucket into a `MatchupStats` record. -/
def finalizeBucket (patch computedAt : String) (b : AggregationBucket) : MatchupStats :=
  let games := b.games
  { patch := patch,
    games := games,
    winRate := round3 ((b.wins : ℚ) / (games : ℚ)),
    goldDiff15 := round ((b.totalGoldDiff15 : ℚ) / (games : ℚ)),
    pre6KillRate := round3 ((b.pre6Kills : ℚ) / (games : ℚ)),
    earlyDeathRate := round3 ((b.pre6Deaths : ℚ) / (games : ℚ)),
    runeUsage := ((sortByCountDesc b.runes).take 3).map
      (fun e => { id := e.1, count := e.2, pct := round3 ((e.2 : ℚ) / (games : ℚ)) }),
    firstItemUsage := ((sortByCountDesc b.items).take 3).map
      (fun e => { id := e.1, count := e.2, pct := round3 ((e.2 : ℚ) / (games : ℚ)) }),
    computedAt := computedAt }

/-- Configuration of `DualWindowRateLimiter` (constructor arguments). -/
structure RLConfig where
  oneSecondLimit : Nat
  oneSecondMs : Nat
  twoMinuteLimit : Nat
  twoMinuteMs : Nat
deriving DecidableEq, Repr

/-- The two timestamp arrays of `DualWindowRateLimiter` (oldest first). -/
structure RLState where
  oneSecondWindow : List Nat
  twoMinuteWindow : List Nat
deriving DecidableEq, Repr

/-- One `while` loop of `DualWindowRateLimiter.prune`: shift entries from the
front while `now - ts >= windowMs`. -/
def pruneWindow (now windowMs : Nat) (l : List Nat) : List Nat :=
  l.dropWhile (fun ts => decide (windowMs ≤ now - ts))

/-- `DualWindowRateLimiter.prune`. -/
def prune (cfg : RLConfig) (now : Nat) (s : RLState) : RLState :=
  { oneSecondWindow := pruneWindow now cfg.oneSecondMs s.oneSecondWindow,
    twoMinuteWindow := pruneWindow now cfg.twoMinuteMs s.twoMinuteWindow }

/-- One iteration of `DualWindowRateLimiter.acquire` at time `now`: prune,
then grant (recording `now` in both windows) exactly when both windows are
under their limits. A failed iteration leaves the pruned state and the caller
sleeps and retries later, so a grant corresponds to the `some` case. -/
def tryAcquire (cfg : RLConfig) (s : RLState) (now : Nat) : Option RLState :=
  let s' := prune cfg now s
  if s'.oneSecondWindow.length < cfg.oneSecondLimit ∧
     s'.twoMinuteWindow.length < cfg.twoMinuteLimit then
    some { oneSecondWindow := s'.oneSecondWindow ++ [now],
           twoMinuteWindow := s'.twoMinuteWindow ++ [now] }
  else
    none

/-- Run the limiter over a serialized sequence of acquire-loop iterations
(JS is single threaded, so concurrent `acquire()` callers interleave as one
such sequence); returns the final state and the granted timestamps. -/
def runLimiter (cfg : RLConfig) (s : RLState) : List Nat → RLState × List Nat
  | [] => (s, [])
  | now :: rest =>
    match tryAcquire cfg s now with
    | some s' =>
      let r := runLimiter cfg s' rest
      (r.1, now :: r.2)
    | none => runLimiter cfg (prune cfg now s) rest

/-- The granted timestamps of a run from the fresh limiter. -/
def grantsOf (cfg : RLConfig) (attempts : List Nat) : List Nat :=
  (runLimiter cfg { oneSecondWindow := [], twoMinuteWindow := [] } attempts).2

/-- `limiter` of `scrapeMatchups.ts`: `new DualWindowRateLimiter(20, 1000, 100, 120000)`. -/
def scrapeLimiterConfig : RLConfig :=
  { oneSecondLimit := 20, oneSecondMs := 1000, twoMinuteLimit := 100, twoMinuteMs := 120000 }

/-- How many of the timestamps `t` in `l` fall in the window `[x, x + w)`. -/
def windowCount (l : List Nat) (x w : Nat) : Nat :=
  (l.filter (fun t => decide (x ≤ t ∧ t < x + w))).length

/-- `RiotClientConfig` from `riotApiClient.ts`; optional fields keep their
`??` defaults at the use sites, as in the source. -/
structure RiotClientConfig where
  minIntervalMs : Option Nat
  maxRetries : Option Nat
  retryBaseMs : Option Nat
  rateLimitCooldownMs : Option Nat
deriving DecidableEq, Repr

/-- One HTTP response as the client sees it: status, body text, and the
parsed `retry-after` header (absent, or its `Number(...)` value). -/
structure HttpResponse where
  status : Nat
  body : String
  retryAfter : Option Int
deriving DecidableEq, Repr

/-- `response.ok`: status in the 200-299 range. -/
def isOk (status : Nat) : Bool := 200 ≤ status && status < 300

/-- `RiotApiClient.getRetryDelayMs`: a positive `retry-after` header wins
(seconds to milliseconds), otherwise exponential backoff `base * 2 ^ attempt`
with `retryBaseMs ?? 800`. -/
def getRetryDelayMs (cfg : RiotClientConfig) (resp : HttpResponse) (attempt : Nat) : Nat :=
  match resp.retryAfter with
  | some seconds =>
    if 0 < seconds then (seconds * 1000).toNat
    else (cfg.retryBaseMs.getD 800) * 2 ^ attempt
  | none => (cfg.retryBaseMs.getD 800) * 2 ^ attempt

/-- `RiotApiClient.activateCooldown`: extend `cooldownUntilMs` to now plus at
least `max(delayMs, rateLimitCooldownMs ?? 45000)`, never shrinking it. -/
def activateCooldown (cfg : RiotClientConfig) (cooldownUntilMs now delayMs : Nat) : Nat :=
  max cooldownUntilMs (now + max delayMs (cfg.rateLimitCooldownMs.getD 45000))

/-- Outcome of one `RiotApiClient.request` call. `cooldownActive` carries the
advertised whole seconds remaining of the "Riot API cooldown active" error;
`failure` carries the HTTP status and response body of the thrown
`Riot API <status> <statusText>: <text>` error; `exhausted` is the
`lastError ?? ...` throw after the loop (unreachable in fact). -/
inductive RequestOutcome where
  | success (body : String)
  | cooldownActive (secondsLeft : Nat)
  | failure (status : Nat) (body : String)
  | exhausted (lastError : Option (Nat × String))
deriving DecidableEq, Repr

/-- Result of a modelled `request` call: the outcome, the client's
`cooldownUntilMs` afterwards, and how many network fetches were made. -/
structure RequestResult where
  outcome : RequestOutcome
  cooldownUntilMs : Nat
  fetches : Nat
deriving DecidableEq, Repr

/-- The retry loop of `RiotApiClient.request`. `oracle` maps the attempt
index to the network's response; `remaining` is the number of loop
iterations left (`maxRetries + 1 - attempt`); the call-local clock is fixed
at `now` (sleep durations are not modelled). -/
def requestLoop (cfg : RiotClientConfig) (oracle : Nat → HttpResponse) (now : Nat)
    (lastError : Option (Nat × String)) (cooldownUntilMs fetches : Nat) :
    Nat → Nat → RequestResult
  | _, 0 => { outcome := .exhausted lastError, cooldownUntilMs := cooldownUntilMs, fetches := fetches }
  | attempt, remaining + 1 =>
    let resp := oracle attempt
    let fetches := fetches + 1
    if isOk resp.status then
      { outcome := .success resp.body, cooldownUntilMs := cooldownUntilMs, fetches := fetches }
    else
      let lastError := some (resp.status, resp.body)
      let canRetry := resp.status = 429 ∧ attempt < cfg.maxRetries.getD 2
      let cooldownUntilMs :=
        if resp.status = 429 then
          activateCooldown cfg cooldownUntilMs now (getRetryDelayMs cfg resp attempt)
        else cooldownUntilMs
      if canRetry then
        requestLoop cfg oracle now lastError cooldownUntilMs fetches (attempt + 1) remaining
      else
        { outcome := .failure resp.status resp.body, cooldownUntilMs := cooldownUntilMs,
          fetches := fetches }

/-- `RiotApiClient.request`: fail fast with the "cooldown active" error while
`now < cooldownUntilMs` (zero fetches), otherwise run the retry loop over
attempts `0..maxRetries`. -/
def request (cfg : RiotClientConfig) (oracle : Nat → HttpResponse)
    (now cooldownUntilMs : Nat) : RequestResult :=
  if now < cooldownUntilMs then
    { outcome := .cooldownActive ((cooldownUntilMs - now + 999) / 1000),
      cooldownUntilMs := cooldownUntilMs, fetches := 0 }
  else
    requestLoop cfg oracle now none cooldownUntilMs 0 0 (cfg.maxRetries.getD 2 + 1)

/-- One row handed to `upsert`/`upsertMany` (`MatchupStatsUpsertRow`). -/
structure UpsertRow where
  patch : String
  lane : Lane
  playerChampion : String
  enemyChampion : String
  stats : MatchupStats
  expiresAtMs : Nat
deriving DecidableEq, Repr

/-- The unique row key of `matchup_stats_cache`:
`(patch, lane, player_champion, enemy_champion)`. -/
structure StoreKey where
  patch : String
  lane : Lane
  playerChampion : String
  enemyChampion : String
deriving DecidableEq, Repr

/-- One persisted row: the stats JSON (valid records round-trip through
`JSON.stringify`/`jsonb`/`JSON.parse`, so it is kept as the value), the
`computed_at` column, and the `expires_at` instant. -/
structure StoredRow where
  stats : MatchupStats
  computedAt : String
  expiresAt : Nat
deriving DecidableEq, Repr

/-- A `matchup_stats_cache` table state, keyed by its unique tuple. -/
abbrev Store := List (StoreKey × StoredRow)

def UpsertRow.key (r : UpsertRow) : StoreKey :=
  ⟨r.patch, r.lane, r.playerChampion, r.enemyChampion⟩

/-- The `INSERT ... ON CONFLICT (patch, lane, player_champion, enemy_champion)
DO UPDATE` statement shared by both backends: insert or replace on the unique
tuple. -/
def dbUpsertRow (db : Store) (r : UpsertRow) : Store :=
  jsSet db r.key { stats := r.stats, computedAt := r.stats.computedAt, expiresAt := r.expiresAtMs }

/-- `PostgresMatchupStatsRepository.get` (and the SQLite `get`, whose unused
`_nowMs` argument is dropped): point lookup on the unique tuple, with no
freshness condition in the `WHERE` clause. -/
def storeGet (db : Store) (patch : String) (lane : Lane)
    (playerChampion enemyChampion : String) : Option MatchupStats :=
  (jsGet db ⟨patch, lane, playerChampion, enemyChampion⟩).map (fun row => row.stats)

/-- Apply every row of a list, or roll back to `db0` when some row's query
fails (`failsOn` is the per-row failure oracle: a constraint violation or
connection error raised by that row's statement). This is the
`BEGIN ... COMMIT`/`ROLLBACK` block semantics. -/
def applyTransaction (failsOn : UpsertRow → Bool) (db0 : Store) : Store → List UpsertRow → Store × Bool
  | db, [] => (db, true)
  | db, r :: rest =>
    if failsOn r then (db0, false)
    else applyTransaction failsOn db0 (dbUpsertRow db r) rest

/-- A transaction started at the current state: returns the committed state
and `true`, or the unchanged state and `false` if some row failed. -/
def runTransaction (failsOn : UpsertRow → Bool) (db : Store) (rows : List UpsertRow) : Store × Bool :=
  let r := applyTransaction failsOn db db rows
  if r.2 then r else (db, false)

/-- `PostgresMatchupStatsRepository.upsertMany`: slice the rows into chunks of
200 and commit each chunk in its own transaction; a failing chunk rolls back
and the error propagates, leaving earlier chunks committed. -/
def pgUpsertMany (failsOn : UpsertRow → Bool) : Store → List UpsertRow → Store × Bool
  | db, [] => (db, true)
  | db, r0 :: rest =>
    let rows := r0 :: rest
    let chunk := rows.take 200
    let r := runTransaction failsOn db chunk
    if r.2 then pgUpsertMany failsOn r.1 (rows.drop 200)
    else (db, false)
termination_by _ rows => rows.length
decreasing_by
  simp only [List.length_drop, List.length_cons]
  omega

/-- The SQLite `MatchupStatsRepository.upsertMany`: every row inside one
single `BEGIN TRANSACTION ... COMMIT`, rolled back as a whole on any error. -/
def sqliteUpsertMany (failsOn : UpsertRow → Bool) (db : Store) (rows : List UpsertRow) : Store × Bool :=
  if rows = [] then (db, true)
  else runTransaction failsOn db rows

/-- `MissingPairBackfillOptions` (the fields `enqueue` reads). -/
structure BackfillOptions where
  enabled : Bool
  maxQueueSize : Nat
  cooldownMs : Nat
deriving DecidableEq, Repr

/-- A backfill request pair (`BackfillRequest`). -/
structure BackfillRequest where
  patch : String
  lane : Lane
  playerChampion : String
  enemyChampion : String
  targetGames : Option Nat
deriving DecidableEq, Repr

/-- The state set queued, processing, complete, partial, error of one
collection snapshot. -/
inductive CollectionState where
  | queued
  | processing
  | complete
  | partialState
  | error
deriving DecidableEq, Repr

/-- `CollectionSnapshot` (the fields the modelled transitions write). -/
structure CollectionSnapshot where
  targetGames : Nat
  latestGames : Nat
  state : CollectionState
deriving DecidableEq, Repr

/-- `MissingPairBackfillService.keyOf`:
`patch:lane:playerChampion:enemyChampion`, modelled structurally. -/
structure BackfillKey where
  patch : String
  lane : Lane
  playerChampion : String
  enemyChampion : String
deriving DecidableEq, Repr

def keyOf (input : BackfillRequest) : BackfillKey :=
  ⟨input.patch, input.lane, input.playerChampion, input.enemyChampion⟩

/-- The mutable fields of `MissingPairBackfillService`. -/
structure BackfillState where
  queue : List BackfillRequest
  queuedKeys : List BackfillKey
  lastAttemptAt : List (BackfillKey × Nat)
  snapshots : List (BackfillKey × CollectionSnapshot)
  currentKey : Option BackfillKey
deriving Repr

/-- The result record of `enqueue`. -/
structure EnqueueResult where
  queued : Bool
  reason : Option String
deriving DecidableEq, Repr

/-- `MissingPairBackfillService.canAttempt`: true when the pair was never
attempted or its last attempt started at least `cooldownMs` ago. -/
def canAttempt (opts : BackfillOptions) (s : BackfillState) (now : Nat) (key : BackfillKey) : Bool :=
  match jsGet s.lastAttemptAt key with
  | none => true
  | some lastAt => decide (opts.cooldownMs ≤ now - lastAt)

/-- `Math.max(1, Math.floor(input.targetGames ?? 10))`. -/
def resolveTargetGames (targetGames : Option Nat) : Nat :=
  max 1 (targetGames.getD 10)

/-- `MissingPairBackfillService.enqueue` (the background `processLoop` kick is
not part of the returned value): reject when disabled, in cooldown, already
queued or processing, or at capacity; otherwise push the pair, mark its key
queued, and write a `queued` snapshot. -/
def enqueue (opts : BackfillOptions) (s : BackfillState) (now : Nat)
    (input : BackfillRequest) : BackfillState × EnqueueResult :=
  if !opts.enabled then (s, { queued := false, reason := some "disabled" })
  else
    let key := keyOf input
    if !canAttempt opts s now key then (s, { queued := false, reason := some "cooldown" })
    else if s.currentKey = some key ∨ key ∈ s.queuedKeys then
      (s, { queued := false, reason := some "already_queued" })
    else if opts.maxQueueSize ≤ s.queue.length then
      (s, { queued := false, reason := some "queue_full" })
    else
      let targetGames := resolveTargetGames input.targetGames
      ({ queue := s.queue ++ [input],
         queuedKeys := s.queuedKeys ++ [key],
         lastAttemptAt := s.lastAttemptAt,
         snapshots := jsSet s.snapshots key
           { targetGames := targetGames,
             latestGames := ((jsGet s.snapshots key).map (fun sn => sn.latestGames)).getD 0,
             state := .queued },
         currentKey := s.currentKey },
       { queued := true, reason := none })

/-- The head of one `processLoop` iteration at time `now`: shift the next
request, record the attempt start in `lastAttemptAt` (before knowing the
outcome), clear its queued mark, set it current, and write a `processing`
snapshot. Returns the dequeued request when the queue was nonempty. -/
def processStart (s : BackfillState) (now : Nat) : BackfillState × Option BackfillRequest :=
  match s.queue with
  | [] => (s, none)
  | next :: rest =>
    let key := keyOf next
    let targetGames := resolveTargetGames next.targetGames
    ({ queue := rest,
       queuedKeys := s.queuedKeys.filter (fun k => k ≠ key),
       lastAttemptAt := jsSet s.lastAttemptAt key now,
       snapshots := jsSet s.snapshots key
         { targetGames := targetGames,
           latestGames := ((jsGet s.snapshots key).map (fun sn => sn.latestGames)).getD 0,
           state := .processing },
       currentKey := some key },
     some next)

/-- The tail of one `processLoop` iteration: on success with `latestGames`
collected, the snapshot becomes `complete` or `partial`; on a thrown error
(`collected = none`) it becomes `error`. Either way `currentKey` clears and
`lastAttemptAt` keeps the attempt-start time. -/
def processFinish (s : BackfillState) (req : BackfillRequest)
    (collected : Option Nat) : BackfillState :=
  let key := keyOf req
  let targetGames := resolveTargetGames req.targetGames
  match collected with
  | some latestGames =>
    { s with
      snapshots := jsSet s.snapshots key
        { targetGames := targetGames, latestGames := latestGames,
          state := if targetGames ≤ latestGames then .complete else .partialState },
      currentKey := none }
  | none =>
    { s with
      snapshots := jsSet s.snapshots key
        { targetGames := targetGames,
          latestGames := ((jsGet s.snapshots key).map (fun sn => sn.latestGames)).getD 0,
          state := .error },
      currentKey := none }

/-- `PostgresMatchupStatsRepository.upsert`: one `ON CONFLICT DO UPDATE` row. -/
def pgUpsert (db : Store) (patch : String) (lane : Lane)
    (playerChampion enemyChampion : String) (stats : MatchupStats) (expiresAtMs : Nat) : Store :=
  jsSet db ⟨patch, lane, playerChampion, enemyChampion⟩
    { stats := stats, computedAt := stats.computedAt, expiresAt := expiresAtMs }

/-- The SQLite `MatchupStatsRepository.upsert`: identical insert-or-replace
statement against the embedded database. -/
def sqliteUpsert (db : Store) (patch : String) (lane : Lane)
    (playerChampion enemyChampion : String) (stats : MatchupStats) (expiresAtMs : Nat) : Store :=
  jsSet db ⟨patch, lane, playerChampion, enemyChampion⟩
    { stats := stats, computedAt := stats.computedAt, expiresAt := expiresAtMs }

/-- `PostgresMatchupStatsRepository.get`. -/
def pgGet (db : Store) (patch : String) (lane : Lane)
    (playerChampion enemyChampion : String) : Option MatchupStats :=
  storeGet db patch lane playerChampion enemyChampion

/-- The SQLite `MatchupStatsRepository.get`; its `_nowMs` default argument is
never used in the query (a valid stats record round-trips through
`JSON.stringify`/`JSON.parse`). -/
def sqliteGet (db : Store) (patch : String) (lane : Lane)
    (playerChampion enemyChampion : String) (_nowMs : Nat) : Option MatchupStats :=
  storeGet db patch lane playerChampion enemyChampion

/-- The directed key with player and enemy swapped. -/
def mirrorKey (k : BucketKey) : BucketKey := ⟨k.patch, k.lane, k.enemy, k.player⟩

/-- Keys of an association list are pairwise distinct (true of every JS
`Map` and of every JSON record). -/
def NodupKeys (l : List (α × β)) : Prop := (l.map Prod.fst).Nodup

/-- Well-formedness of one bucket: its rune and item maps have distinct keys. -/
def BucketWF (b : AggregationBucket) : Prop := NodupKeys b.runes ∧ NodupKeys b.items

/-- Well-formedness of a bucket map: distinct keys, well-formed buckets. -/
def MapWF (m : BucketMap) : Prop := NodupKeys m ∧ ∀ e ∈ m, BucketWF e.2

/-- The default lane set of the scrape CLI: `top,jungle,mid,adc,support`. -/
def lanesAll : List Lane := [.top, .jungle, .mid, .adc, .support]

/-- The winning TOP participant (id 1) playing champion `A`. -/
def participantA (A : String) : Participant :=
  { participantId := 1, teamPosition := "TOP", championName := A, win := true,
    keystoneId := some 8010, item0 := 3074 }

/-- The losing TOP participant (id 2) playing champion `B`. -/
def participantB (B : String) : Participant :=
  { participantId := 2, teamPosition := "TOP", championName := B, win := false,
    keystoneId := some 8112, item0 := 3078 }

/-- A synthetic match whose only eligible lane pairing is champion `A`
(team position TOP, participant 1, winning side) against champion `B`
(team position TOP, participant 2): gold 1325 versus 1025 at the minute-15
frame, one pre-6 kill by participant 1. -/
def matchC7 (A B : String) : MatchData :=
  { gameVersion := "15.1.654.9999",
    participants := [participantA A, participantB B],
    frames :=
      [{ timestamp := 900000,
         participantFrames := [(1, 1325), (2, 1025)],
         events := [{ type := "CHAMPION_KILL", timestamp := 240000, killerId := 1 }] }] }

/-- The bucket stored at a key, or the fresh bucket when absent (the
`buckets.get(key) ?? {...}` read of `applySide`). -/
def bucketAt (m : BucketMap) (k : BucketKey) : AggregationBucket :=
  (jsGet m k).getD emptyBucket

/-- A synthetic top-lane match for the finalize scenario: Garen (participant
1) against Darius (participant 2) with the given outcome for Garen and the
given minute-15 gold totals. -/
def matchC8 (garenWin : Bool) (garenGold dariusGold : Int) : MatchData :=
  { gameVersion := "15.1.654.9999",
    participants :=
      [{ participantId := 1, teamPosition := "TOP", championName := "Garen", win := garenWin,
         keystoneId := some 8010, item0 := 3074 },
       { participantId := 2, teamPosition := "TOP", championName := "Darius", win := !garenWin,
         keystoneId := some 8112, item0 := 3078 }],
    frames :=
      [{ timestamp := 900000,
         participantFrames := [(1, garenGold), (2, dariusGold)],
         events := [] }] }

/-- The three matches of the finalize scenario: gold differentials +300,
-100, -200 for Garen and outcomes win/win/loss. -/
def scenarioMatches : List MatchData :=
  [matchC8 true 1300 1000, matchC8 true 900 1000, matchC8 false 800 1000]

/-- A network oracle whose first response is a 500 with body "boom" and whose
later responses would succeed. -/
def oracleC2 : Nat → HttpResponse :=
  fun attempt => if attempt = 0 then ⟨500, "boom", none⟩ else ⟨200, "ok", none⟩

/-- A network oracle whose first response is a 429 advertising a 2 second
retry-after, followed by successes. -/
def oracleC5 : Nat → HttpResponse :=
  fun attempt => if attempt = 0 then ⟨429, "limited", some 2⟩ else ⟨200, "ok", none⟩

/-- A `RiotClientConfig` with every optional field absent (all defaults). -/
def defaultRiotConfig : RiotClientConfig :=
  { minIntervalMs := none, maxRetries := none, retryBaseMs := none, rateLimitCooldownMs := none }

/-- A fixed stats record used by concrete store scenarios. -/
def statsC3 : MatchupStats :=
  { patch := "25.1", games := 3, winRate := 667/1000, goldDiff15 := 0,
    pre6KillRate := 1/3, earlyDeathRate := 0, runeUsage := [], firstItemUsage := [],
    computedAt := "2026-01-01T00:00:00.000Z" }

/-- 201 upsert rows with distinct player champions `p0..p200`. -/
def rowsC3 : List UpsertRow :=
  (List.range 201).map (fun i =>
    { patch := "25.1", lane := .top, playerChampion := "p" ++ toString i,
      enemyChampion := "x", stats := statsC3, expiresAtMs := 0 })

/-- A failure oracle making exactly the 201st row (player champion `p200`,
the first row of the second 200-row chunk) raise. -/
def failsOnC3 : UpsertRow → Bool := fun r => r.playerChampion = "p200"

/-- Fold a row list into the store with the shared insert-or-replace
statement. -/
def applyRows (db : Store) (rows : List UpsertRow) : Store :=
  rows.foldl dbUpsertRow db

/-- The mirror invariant of the bulk aggregator's bucket map: every directed
key coexists with its swapped twin, their games counts agree, and the pre-6
deaths of one direction equal the pre-6 kills of the other. -/
def MirrorInv (m : BucketMap) : Prop :=
  ∀ k b, jsGet m k = some b →
    ∃ b', jsGet m (mirrorKey k) = some b' ∧ b.games = b'.games ∧
      b.pre6Deaths = b'.pre6Kills ∧ b.pre6Kills = b'.pre6Deaths

/-- Concrete backfill options: enabled, capacity 4, one-minute cooldown. -/
def bfOpts : BackfillOptions := { enabled := true, maxQueueSize := 4, cooldownMs := 60000 }

/-- A concrete backfill request pair. -/
def bfInput : BackfillRequest :=
  { patch := "25.1", lane := .top, playerChampion := "Garen", enemyChampion := "Darius",
    targetGames := some 10 }

/-- A backfill state in which `bfInput` is queued and was never attempted. -/
def bfQueuedState : BackfillState :=
  { queue := [bfInput], queuedKeys := [keyOf bfInput], lastAttemptAt := [],
    snapshots := [(keyOf bfInput, { targetGames := 10, latestGames := 0, state := .queued })],
    currentKey := none }

/-- A single-row list for the all-successful upsertMany witness. -/
def rowsOk : List UpsertRow :=
  [{ patch := "25.1", lane := .top, playerChampion := "p0", enemyChampion := "x",
     stats := statsC3, expiresAtMs := 0 }]

theorem jsGet_jsSet_self [DecidableEq α] (l : List (α × β)) (k : α) (v : β) :
    jsGet (jsSet l k v) k = some v := by
  induction l with
  | nil => simp [jsSet, jsGet]
  | cons e rest ih =>
    obtain ⟨k', v'⟩ := e
    by_cases h : k' = k
    · simp [jsSet, jsGet, h]
    · simp [jsSet, jsGet, h, ih]

theorem jsGet_jsSet_ne [DecidableEq α] (l : List (α × β)) (k k' : α) (v : β)
    (h : k' ≠ k) : jsGet (jsSet l k v) k' = jsGet l k' := by
  induction l with
  | nil => simp [jsSet, jsGet, Ne.symm h]
  | cons e rest ih =>
    obtain ⟨ke, ve⟩ := e
    by_cases hk : ke = k
    · subst hk
      simp [jsSet, jsGet, Ne.symm h]
    · simp [jsSet, jsGet, hk, ih]

/-- C9: upserting a valid record into either backend and reading the same
(patch, lane, playerChampion, enemyChampion) key back returns that record,
whatever its expiry instant is, because `get` is a point lookup with no
freshness filtering. -/
theorem cache_upsert_get_roundtrip (pgDb sqDb : Store) (patch : String) (lane : Lane)
    (playerChampion enemyChampion : String) (stats : MatchupStats) (expiresAtMs nowMs : Nat) :
    pgGet (pgUpsert pgDb patch lane playerChampion enemyChampion stats expiresAtMs)
        patch lane playerChampion enemyChampion = some stats ∧
    sqliteGet (sqliteUpsert sqDb patch lane playerChampion enemyChampion stats expiresAtMs)
        patch lane playerChampion enemyChampion nowMs = some stats := by
  constructor <;>
    simp [pgGet, sqliteGet, pgUpsert, sqliteUpsert, storeGet, jsGet_jsSet_self]

/-- C2 counterexample: with `maxRetries = 2` and a network whose first
response is an HTTP 500 (and would succeed afterwards), `request` makes a
single fetch and throws immediately; the non-429 failure is not retried at
all, contrary to the claim. -/
theorem riot_request_non429_not_retried :
    request { minIntervalMs := none, maxRetries := some 2, retryBaseMs := none,
              rateLimitCooldownMs := none } oracleC2 0 0 =
      { outcome := .failure 500 "boom", cooldownUntilMs := 0, fetches := 1 } := by
  decide

theorem requestLoop_zero (cfg : RiotClientConfig) (oracle : Nat → HttpResponse) (now : Nat)
    (lastError : Option (Nat × String)) (cd f attempt : Nat) :
    requestLoop cfg oracle now lastError cd f attempt 0 =
      { outcome := .exhausted lastError, cooldownUntilMs := cd, fetches := f } := rfl

theorem requestLoop_step (cfg : RiotClientConfig) (oracle : Nat → HttpResponse) (now : Nat)
    (lastError : Option (Nat × String)) (cd f attempt n : Nat) :
    requestLoop cfg oracle now lastError cd f attempt (n + 1) =
      if isOk (oracle attempt).status then
        { outcome := .success (oracle attempt).body, cooldownUntilMs := cd, fetches := f + 1 }
      else if (oracle attempt).status = 429 ∧ attempt < cfg.maxRetries.getD 2 then
        requestLoop cfg oracle now (some ((oracle attempt).status, (oracle attempt).body))
          (if (oracle attempt).status = 429 then
            activateCooldown cfg cd now (getRetryDelayMs cfg (oracle attempt) attempt)
          else cd)
          (f + 1) (attempt + 1) n
      else
        { outcome := .failure (oracle attempt).status (oracle attempt).body,
          cooldownUntilMs :=
            if (oracle attempt).status = 429 then
              activateCooldown cfg cd now (getRetryDelayMs cfg (oracle attempt) attempt)
            else cd,
          fetches := f + 1 } := rfl

theorem le_activateCooldown (cfg : RiotClientConfig) (cd now d : Nat) :
    cd ≤ activateCooldown cfg cd now d := le_max_left _ _

theorem requestLoop_cooldown_le (cfg : RiotClientConfig) (oracle : Nat → HttpResponse)
    (now : Nat) :
    ∀ (remaining attempt : Nat) (lastError : Option (Nat × String)) (cd f : Nat),
      cd ≤ (requestLoop cfg oracle now lastError cd f attempt remaining).cooldownUntilMs := by
  intro remaining
  induction remaining with
  | zero =>
    intro attempt lastError cd f
    rw [requestLoop_zero]
  | succ r ih =>
    intro attempt lastError cd f
    rw [requestLoop_step]
    split_ifs
    all_goals
      first
      | exact le_refl cd
      | exact le_trans (le_activateCooldown cfg cd now _) (ih _ _ _ _)
      | exact ih _ _ _ _
      | exact le_activateCooldown cfg cd now _

theorem requestLoop_all429 (cfg : RiotClientConfig) (oracle : Nat → HttpResponse)
    (now : Nat) (h429 : ∀ i, (oracle i).status = 429) :
    ∀ (k attempt : Nat) (lastError : Option (Nat × String)) (cd f : Nat),
      attempt + k = cfg.maxRetries.getD 2 →
      (requestLoop cfg oracle now lastError cd f attempt (k + 1)).outcome =
        .failure 429 (oracle (attempt + k)).body ∧
      (requestLoop cfg oracle now lastError cd f attempt (k + 1)).fetches = f + (k + 1) := by
  intro k
  induction k with
  | zero =>
    intro attempt lastError cd f hmax
    have hok429 : isOk 429 = false := rfl
    have hlt : ¬ attempt < cfg.maxRetries.getD 2 := by omega
    rw [requestLoop_step]
    simp [hok429, hlt, h429 attempt]
  | succ k ih =>
    intro attempt lastError cd f hmax
    have hok : isOk (oracle attempt).status = false := by rw [h429 attempt]; rfl
    have hlt : attempt < cfg.maxRetries.getD 2 := by omega
    have hcr : (oracle attempt).status = 429 ∧ attempt < cfg.maxRetries.getD 2 :=
      ⟨h429 attempt, hlt⟩
    have harith : attempt + 1 + k = cfg.maxRetries.getD 2 := by omega
    have hrec := ih (attempt + 1) (some ((oracle attempt).status, (oracle attempt).body))
      (if (oracle attempt).status = 429 then
        activateCooldown cfg cd now (getRetryDelayMs cfg (oracle attempt) attempt)
      else cd)
      (f + 1) harith
    have hidx : attempt + 1 + k = attempt + (k + 1) := by omega
    rw [hidx] at hrec
    rw [requestLoop_step]
    rw [if_neg (by simp [hok]), if_pos hcr]
    exact ⟨hrec.1, by rw [hrec.2]; omega⟩

/-- C2 (amended): a non-429 HTTP failure is surfaced immediately on the
first attempt, with no retry, as an error carrying the status and body; it is
429 responses that are retried, up to the configured maximum (with backoff
between attempts), and exhausting those retries raises an error carrying the
final 429 status and body. -/
theorem riot_request_retry_policy (cfg : RiotClientConfig) (oracle : Nat → HttpResponse)
    (now cooldownUntilMs : Nat) (hcd : cooldownUntilMs ≤ now) :
    (isOk (oracle 0).status = false → (oracle 0).status ≠ 429 →
      request cfg oracle now cooldownUntilMs =
        { outcome := .failure (oracle 0).status (oracle 0).body,
          cooldownUntilMs := cooldownUntilMs, fetches := 1 }) ∧
    ((∀ i, (oracle i).status = 429) →
      (request cfg oracle now cooldownUntilMs).outcome =
        .failure 429 (oracle (cfg.maxRetries.getD 2)).body ∧
      (request cfg oracle now cooldownUntilMs).fetches = cfg.maxRetries.getD 2 + 1) := by
  have hnot : ¬ now < cooldownUntilMs := not_lt.mpr hcd
  constructor
  · intro hok h429
    have hcr : ¬((oracle 0).status = 429 ∧ 0 < cfg.maxRetries.getD 2) := by
      intro h; exact h429 h.1
    rw [request, if_neg hnot, requestLoop_step,
      if_neg (by simp [hok]), if_neg hcr, if_neg h429]
  · intro h429
    have hrec := requestLoop_all429 cfg oracle now h429 (cfg.maxRetries.getD 2) 0 none
      cooldownUntilMs 0 (by omega)
    simp only [Nat.zero_add] at hrec
    rw [request, if_neg hnot]
    exact hrec

/-- Witness for the amended C2 theorem: a concrete 500-then-ok network
yields a single fetch and an immediate failure carrying status and body. -/
theorem riot_request_retry_policy_witness :
    request defaultRiotConfig oracleC2 5 3 =
      { outcome := .failure 500 "boom", cooldownUntilMs := 3, fetches := 1 } :=
  (riot_request_retry_policy defaultRiotConfig oracleC2 5 3 (by decide)).1
    (by decide) (by decide)

/-- C5: after a 429 whose retry-after header advertises `r` seconds, the
client's cooldown deadline is at least `now` plus the larger of `r * 1000`
milliseconds and the configured floor `rateLimitCooldownMs ?? 45000`; and
while any cooldown deadline lies in the future, `request` fails immediately
with the descriptive cooldown-active error and performs zero fetches. -/
theorem riot_429_cooldown_policy (cfg : RiotClientConfig) (oracle : Nat → HttpResponse)
    (now cooldownUntilMs : Nat) (b : String) (r : Int)
    (hcd : cooldownUntilMs ≤ now) (hr : 0 < r)
    (h0 : oracle 0 = { status := 429, body := b, retryAfter := some r }) :
    now + max (r * 1000).toNat (cfg.rateLimitCooldownMs.getD 45000) ≤
      (request cfg oracle now cooldownUntilMs).cooldownUntilMs ∧
    (∀ t cd, t < cd →
      request cfg oracle t cd =
        { outcome := .cooldownActive ((cd - t + 999) / 1000),
          cooldownUntilMs := cd, fetches := 0 }) := by
  have hnot : ¬ now < cooldownUntilMs := not_lt.mpr hcd
  constructor
  · have hok : isOk (oracle 0).status = false := by rw [h0]; rfl
    have h429 : (oracle 0).status = 429 := by rw [h0]
    have hdelay : getRetryDelayMs cfg (oracle 0) 0 = (r * 1000).toNat := by
      rw [h0]; simp [getRetryDelayMs, hr]
    have hbound : now + max (r * 1000).toNat (cfg.rateLimitCooldownMs.getD 45000) ≤
        activateCooldown cfg cooldownUntilMs now (getRetryDelayMs cfg (oracle 0) 0) := by
      rw [hdelay]
      exact le_max_right _ _
    rw [request, if_neg hnot, requestLoop_step, if_neg (by simp [hok])]
    by_cases hcr : (oracle 0).status = 429 ∧ 0 < cfg.maxRetries.getD 2
    · rw [if_pos hcr, if_pos h429]
      exact le_trans hbound (requestLoop_cooldown_le cfg oracle now _ _ _ _ _)
    · rw [if_neg hcr]
      simp only [if_pos h429]
      exact hbound
  · intro t cd ht
    rw [request, if_pos ht]

/-- Witness for the C5 theorem: the 2-second advertised delay loses to the
45-second default floor, and a call 123 ms into the resulting cooldown
fails immediately with the cooldown-active error and zero fetches. -/
theorem riot_429_cooldown_policy_witness :
    46000 ≤ (request defaultRiotConfig oracleC5 1000 0).cooldownUntilMs ∧
    request defaultRiotConfig oracleC5 123 46000 =
      { outcome := .cooldownActive 46, cooldownUntilMs := 46000, fetches := 0 } :=
  ⟨(riot_429_cooldown_policy defaultRiotConfig oracleC5 1000 0 "limited" 2
      (by decide) (by decide) (by decide)).1,
   (riot_429_cooldown_policy defaultRiotConfig oracleC5 1000 0 "limited" 2
      (by decide) (by decide) (by decide)).2 123 46000 (by decide)⟩

/-- C6: with the feature enabled, a second `enqueue` for a pair that is still
queued and never attempted returns already_queued, and an `enqueue` for a
pair whose most recent processing attempt started less than `cooldownMs` ago
returns cooldown, whether that attempt finished successfully (any collected
count) or with an error. -/
theorem backfill_enqueue_dedup_and_cooldown
    (opts : BackfillOptions) (hEnabled : opts.enabled = true)
    (s₁ : BackfillState) (input₁ : BackfillRequest) (now₁ : Nat)
    (hQueued : keyOf input₁ ∈ s₁.queuedKeys)
    (hNever : jsGet s₁.lastAttemptAt (keyOf input₁) = none)
    (s₂ : BackfillState) (input₂ : BackfillRequest) (rest : List BackfillRequest)
    (t₀ now₂ : Nat) (collected : Option Nat)
    (hHead : s₂.queue = input₂ :: rest)
    (_hT : t₀ ≤ now₂) (hCd : now₂ - t₀ < opts.cooldownMs) :
    (enqueue opts s₁ now₁ input₁).2 = { queued := false, reason := some "already_queued" } ∧
    (enqueue opts (processFinish (processStart s₂ t₀).1 input₂ collected) now₂ input₂).2 =
      { queued := false, reason := some "cooldown" } := by
  constructor
  · simp [enqueue, hEnabled, canAttempt, hNever, hQueued]
  · have hstart : (processStart s₂ t₀).1.lastAttemptAt =
        jsSet s₂.lastAttemptAt (keyOf input₂) t₀ := by
      simp [processStart, hHead]
    have hfin : (processFinish (processStart s₂ t₀).1 input₂ collected).lastAttemptAt =
        jsSet s₂.lastAttemptAt (keyOf input₂) t₀ := by
      cases collected <;> simp [processFinish, hstart]
    have hlast : jsGet (processFinish (processStart s₂ t₀).1 input₂ collected).lastAttemptAt
        (keyOf input₂) = some t₀ := by
      rw [hfin, jsGet_jsSet_self]
    have hnot : ¬ (opts.cooldownMs ≤ now₂ - t₀) := by omega
    simp [enqueue, hEnabled, canAttempt, hlast, hnot]

/-- Witness for the C6 theorem: a concrete queued-never-attempted state
yields already_queued, and re-enqueueing 2 seconds after an attempt started
(under a 60 second cooldown) yields cooldown, for a successful attempt. -/
theorem backfill_enqueue_dedup_and_cooldown_witness :
    (enqueue bfOpts bfQueuedState 5000 bfInput).2 =
      { queued := false, reason := some "already_queued" } ∧
    (enqueue bfOpts
        (processFinish (processStart bfQueuedState 1000).1 bfInput (some 12)) 3000 bfInput).2 =
      { queued := false, reason := some "cooldown" } :=
  backfill_enqueue_dedup_and_cooldown bfOpts (by decide) bfQueuedState bfInput 5000
    (by decide) (by decide) bfQueuedState bfInput [] 1000 3000 (some 12)
    (by decide) (by decide) (by decide)

theorem applyTransaction_ok (failsOn : UpsertRow → Bool) :
    ∀ (rows : List UpsertRow) (db0 db : Store),
      rows.all (fun r => !failsOn r) →
      applyTransaction failsOn db0 db rows = (rows.foldl dbUpsertRow db, true) := by
  intro rows
  induction rows with
  | nil => intro db0 db _; rfl
  | cons r rest ih =>
    intro db0 db hall
    simp only [List.all_cons, Bool.and_eq_true, Bool.not_eq_true'] at hall
    simp only [applyTransaction, hall.1, Bool.false_eq_true, if_false, List.foldl_cons]
    exact ih db0 (dbUpsertRow db r) (by simpa using hall.2)

theorem applyTransaction_err (failsOn : UpsertRow → Bool) :
    ∀ (rows : List UpsertRow) (db0 db : Store),
      rows.any failsOn →
      applyTransaction failsOn db0 db rows = (db0, false) := by
  intro rows
  induction rows with
  | nil => intro db0 db h; simp at h
  | cons r rest ih =>
    intro db0 db hany
    by_cases hr : failsOn r
    · simp [applyTransaction, hr]
    · simp only [List.any_cons, Bool.or_eq_true] at hany
      have : rest.any failsOn := by
        rcases hany with h | h
        · exact absurd h hr
        · exact h
      simp [applyTransaction, hr, ih db0 (dbUpsertRow db r) this]

theorem runTransaction_ok (failsOn : UpsertRow → Bool) (db : Store) (rows : List UpsertRow)
    (hall : rows.all (fun r => !failsOn r)) :
    runTransaction failsOn db rows = (rows.foldl dbUpsertRow db, true) := by
  simp [runTransaction, applyTransaction_ok failsOn rows db db hall]

theorem runTransaction_err (failsOn : UpsertRow → Bool) (db : Store) (rows : List UpsertRow)
    (hany : rows.any failsOn) :
    runTransaction failsOn db rows = (db, false) := by
  simp [runTransaction, applyTransaction_err failsOn rows db db hany]

theorem pgUpsertMany_chunk_ok (failsOn : UpsertRow → Bool) (db : Store)
    (rows : List UpsertRow) (hne : rows ≠ [])
    (hall : (rows.take 200).all (fun r => !failsOn r)) :
    pgUpsertMany failsOn db rows =
      pgUpsertMany failsOn (applyRows db (rows.take 200)) (rows.drop 200) := by
  obtain ⟨r0, rest, rfl⟩ := List.exists_cons_of_ne_nil hne
  rw [pgUpsertMany]
  simp only [runTransaction_ok failsOn db _ hall, applyRows, if_true]

theorem pgUpsertMany_chunk_err (failsOn : UpsertRow → Bool) (db : Store)
    (rows : List UpsertRow) (hne : rows ≠ [])
    (hany : (rows.take 200).any failsOn) :
    pgUpsertMany failsOn db rows = (db, false) := by
  obtain ⟨r0, rest, rfl⟩ := List.exists_cons_of_ne_nil hne
  rw [pgUpsertMany]
  simp only [runTransaction_err failsOn db _ hany, Bool.false_eq_true, if_false]

theorem pgUpsertMany_nil (failsOn : UpsertRow → Bool) (db : Store) :
    pgUpsertMany failsOn db [] = (db, true) := by
  rw [pgUpsertMany]

theorem pgUpsertMany_all_ok (failsOn : UpsertRow → Bool) :
    ∀ (n : Nat) (rows : List UpsertRow), rows.length ≤ n → ∀ (db : Store),
      rows.all (fun r => !failsOn r) →
      pgUpsertMany failsOn db rows = (applyRows db rows, true) := by
  intro n
  induction n with
  | zero =>
    intro rows hlen db _
    have : rows = [] := List.length_eq_zero.mp (Nat.le_zero.mp hlen)
    subst this
    exact pgUpsertMany_nil failsOn db
  | succ n ih =>
    intro rows hlen db hall
    by_cases hne : rows = []
    · subst hne; exact pgUpsertMany_nil failsOn db
    · have htake : (rows.take 200).all (fun r => !failsOn r) := by
        rw [List.all_eq_true] at hall ⊢
        intro r hr
        exact hall r (List.mem_of_mem_take hr)
      rw [pgUpsertMany_chunk_ok failsOn db rows hne htake]
      have hlen2 : (rows.drop 200).length ≤ n := by
        have hpos : 0 < rows.length := List.length_pos.mpr hne
        simp only [List.length_drop]
        omega
      have hdrop : (rows.drop 200).all (fun r => !failsOn r) := by
        rw [List.all_eq_true] at hall ⊢
        intro r hr
        exact hall r (List.mem_of_mem_drop hr)
      rw [ih (rows.drop 200) hlen2 (applyRows db (rows.take 200)) hdrop]
      simp only [applyRows, ← List.foldl_append, List.take_append_drop]

theorem sqliteUpsertMany_err (failsOn : UpsertRow → Bool) (db : Store)
    (rows : List UpsertRow) (hany : rows.any failsOn) :
    sqliteUpsertMany failsOn db rows = (db, false) := by
  have hne : rows ≠ [] := by
    intro h
    subst h
    simp at hany
  unfold sqliteUpsertMany
  rw [if_neg hne]
  exact runTransaction_err failsOn db rows hany

/-- C3 counterexample: a batch of 201 rows whose 201st row fails. Under the
claim, both backends would keep the first 200-row chunk committed. The
Postgres backend does (its result is the first chunk plus a raised error),
but the SQLite backend rolls the entire batch back to the empty store: it
runs one transaction over all rows, with no chunking. -/
theorem upsertMany_chunking_counterexample :
    sqliteUpsertMany failsOnC3 [] rowsC3 = ([], false) ∧
    pgUpsertMany failsOnC3 [] rowsC3 = (applyRows [] (rowsC3.take 200), false) := by
  refine ⟨sqliteUpsertMany_err failsOnC3 [] rowsC3 (by decide), ?_⟩
  rw [pgUpsertMany_chunk_ok failsOnC3 [] rowsC3 (by decide) (by decide)]
  exact pgUpsertMany_chunk_err failsOnC3 _ (rowsC3.drop 200) (by decide) (by decide)

/-- C3 (amended): the Postgres backend's `upsertMany` commits in 200-row
chunks, each in its own transaction: an error-free leading chunk commits and
processing continues on the remainder, a failing chunk rolls back only itself
(leaving the store as previously committed), and an error-free batch commits
fully. The SQLite backend's `upsertMany` instead runs the whole batch in one
transaction: any failure rolls back every row, and only an error-free batch
commits (fully). -/
theorem upsertMany_transaction_semantics (failsOn : UpsertRow → Bool) (db : Store)
    (rows : List UpsertRow) :
    (rows ≠ [] → (rows.take 200).all (fun r => !failsOn r) →
      pgUpsertMany failsOn db rows =
        pgUpsertMany failsOn (applyRows db (rows.take 200)) (rows.drop 200)) ∧
    (rows ≠ [] → (rows.take 200).any failsOn →
      pgUpsertMany failsOn db rows = (db, false)) ∧
    (rows.any failsOn → sqliteUpsertMany failsOn db rows = (db, false)) ∧
    ((rows.all fun r => !failsOn r) →
      pgUpsertMany failsOn db rows = (applyRows db rows, true) ∧
      sqliteUpsertMany failsOn db rows = (applyRows db rows, true)) := by
  refine ⟨pgUpsertMany_chunk_ok failsOn db rows,
          pgUpsertMany_chunk_err failsOn db rows,
          sqliteUpsertMany_err failsOn db rows, ?_⟩
  intro hall
  refine ⟨pgUpsertMany_all_ok failsOn rows.length rows (le_refl _) db hall, ?_⟩
  by_cases hne : rows = []
  · subst hne; rfl
  · unfold sqliteUpsertMany
    rw [if_neg hne, runTransaction_ok failsOn db rows hall]
    rfl

/-- Witness for the amended C3 theorem: an error-free single-row batch
commits fully in both backends. -/
theorem upsertMany_transaction_semantics_witness :
    pgUpsertMany (fun _ => false) [] rowsOk = (applyRows [] rowsOk, true) ∧
    sqliteUpsertMany (fun _ => false) [] rowsOk = (applyRows [] rowsOk, true) :=
  (upsertMany_transaction_semantics (fun _ => false) [] rowsOk).2.2.2 (by decide)

theorem runLimiter_cons (cfg : RLConfig) (s : RLState) (now : Nat) (rest : List Nat) :
    runLimiter cfg s (now :: rest) =
      match tryAcquire cfg s now with
      | some s' => ((runLimiter cfg s' rest).1, now :: (runLimiter cfg s' rest).2)
      | none => runLimiter cfg (prune cfg now s) rest := rfl

theorem pruneWindow_filter (ms : Nat) :
    ∀ (G : List Nat) (n n' : Nat), List.Pairwise (· ≤ ·) G → (∀ g ∈ G, g ≤ n) → n ≤ n' →
      pruneWindow n' ms (G.filter (fun g => decide (n < g + ms))) =
        G.filter (fun g => decide (n' < g + ms)) := by
  intro G
  induction G with
  | nil => intro n n' _ _ _; rfl
  | cons a t ih =>
    intro n n' hpw hle hnn
    have hat : ∀ g ∈ t, a ≤ g := (List.pairwise_cons.mp hpw).1
    have hpt : List.Pairwise (· ≤ ·) t := (List.pairwise_cons.mp hpw).2
    have hlet : ∀ g ∈ t, g ≤ n := fun g hg => hle g (List.mem_cons_of_mem _ hg)
    have han : a ≤ n := hle a (List.mem_cons_self _ _)
    by_cases hpa : n < a + ms
    · rw [List.filter_cons_of_pos (by simpa using hpa)]
      by_cases hpa' : n' < a + ms
      · have hkeep : ∀ g ∈ t, n' < g + ms := fun g hg =>
          lt_of_lt_of_le hpa' (Nat.add_le_add_right (hat g hg) ms)
        have ht1 : t.filter (fun g => decide (n < g + ms)) = t :=
          List.filter_eq_self.mpr (fun g hg => by
            simpa using lt_of_le_of_lt hnn (hkeep g hg))
        have ht2 : t.filter (fun g => decide (n' < g + ms)) = t :=
          List.filter_eq_self.mpr (fun g hg => by simpa using hkeep g hg)
        have hdrop : ¬ (ms ≤ n' - a) := by omega
        rw [List.filter_cons_of_pos (by simpa using hpa'), ht1, ht2]
        unfold pruneWindow
        rw [List.dropWhile_cons_of_neg (by simpa using hdrop)]
      · have hdrop : ms ≤ n' - a := by omega
        unfold pruneWindow
        rw [List.dropWhile_cons_of_pos (by simpa using hdrop),
          List.filter_cons_of_neg (by simpa using hpa')]
        exact ih n n' hpt hlet hnn
    · have hpa' : ¬ n' < a + ms := by omega
      rw [List.filter_cons_of_neg (by simpa using hpa),
        List.filter_cons_of_neg (by simpa using hpa')]
      exact ih n n' hpt hlet hnn

theorem windowCount_append (G H : List Nat) (x w : Nat) :
    windowCount (G ++ H) x w = windowCount G x w + windowCount H x w := by
  simp [windowCount, List.filter_append]

theorem windowCount_le_filter_length (G : List Nat) (x w n : Nat) (hwin : n < x + w) :
    windowCount G x w ≤ (G.filter (fun g => decide (n < g + w))).length := by
  simp only [windowCount, ← List.countP_eq_length_filter]
  refine List.countP_mono_left (fun g _ hg => ?_)
  simp only [decide_eq_true_eq] at hg ⊢
  omega

theorem runLimiter_windows_bounded (cfg : RLConfig) (h1 : 0 < cfg.oneSecondMs)
    (h2 : 0 < cfg.twoMinuteMs) :
    ∀ (attempts : List Nat) (n : Nat) (G : List Nat) (s : RLState),
      List.Chain (· ≤ ·) n attempts →
      List.Pairwise (· ≤ ·) G →
      (∀ g ∈ G, g ≤ n) →
      s.oneSecondWindow = G.filter (fun g => decide (n < g + cfg.oneSecondMs)) →
      s.twoMinuteWindow = G.filter (fun g => decide (n < g + cfg.twoMinuteMs)) →
      (∀ x, windowCount G x cfg.oneSecondMs ≤ cfg.oneSecondLimit ∧
            windowCount G x cfg.twoMinuteMs ≤ cfg.twoMinuteLimit) →
      ∀ x,
        windowCount (G ++ (runLimiter cfg s attempts).2) x cfg.oneSecondMs ≤
          cfg.oneSecondLimit ∧
        windowCount (G ++ (runLimiter cfg s attempts).2) x cfg.twoMinuteMs ≤
          cfg.twoMinuteLimit := by
  intro attempts
  induction attempts with
  | nil =>
    intro n G s _ _ _ _ _ hbound x
    simpa [runLimiter] using hbound x
  | cons now rest ih =>
    intro n G s hchain hpw hle hs1 hs2 hbound x
    have hnn : n ≤ now := (List.chain_cons.mp hchain).1
    have hrest : List.Chain (· ≤ ·) now rest := (List.chain_cons.mp hchain).2
    have hlenow : ∀ g ∈ G, g ≤ now := fun g hg => le_trans (hle g hg) hnn
    have hprune : prune cfg now s =
        { oneSecondWindow := G.filter (fun g => decide (now < g + cfg.oneSecondMs)),
          twoMinuteWindow := G.filter (fun g => decide (now < g + cfg.twoMinuteMs)) } := by
      unfold prune
      rw [hs1, hs2, pruneWindow_filter cfg.oneSecondMs G n now hpw hle hnn,
        pruneWindow_filter cfg.twoMinuteMs G n now hpw hle hnn]
    by_cases hcond :
        (G.filter (fun g => decide (now < g + cfg.oneSecondMs))).length < cfg.oneSecondLimit ∧
        (G.filter (fun g => decide (now < g + cfg.twoMinuteMs))).length < cfg.twoMinuteLimit
    · have htry : tryAcquire cfg s now = some
          { oneSecondWindow := G.filter (fun g => decide (now < g + cfg.oneSecondMs)) ++ [now],
            twoMinuteWindow := G.filter (fun g => decide (now < g + cfg.twoMinuteMs)) ++ [now] } := by
        unfold tryAcquire
        rw [hprune]
        exact if_pos hcond
      have hG' : ∀ g ∈ G ++ [now], g ≤ now := by
        intro g hg
        rcases List.mem_append.mp hg with h | h
        · exact hlenow g h
        · simp only [List.mem_singleton] at h
          omega
      have hpw' : List.Pairwise (· ≤ ·) (G ++ [now]) := by
        rw [List.pairwise_append]
        exact ⟨hpw, List.pairwise_singleton _ _, fun a ha b hb => by
          simp only [List.mem_singleton] at hb
          subst hb
          exact hlenow a ha⟩
      have hfil1 : (G ++ [now]).filter (fun g => decide (now < g + cfg.oneSecondMs)) =
          G.filter (fun g => decide (now < g + cfg.oneSecondMs)) ++ [now] := by
        rw [List.filter_append]
        simp [h1]
      have hfil2 : (G ++ [now]).filter (fun g => decide (now < g + cfg.twoMinuteMs)) =
          G.filter (fun g => decide (now < g + cfg.twoMinuteMs)) ++ [now] := by
        rw [List.filter_append]
        simp [h2]
      have hbound' : ∀ y, windowCount (G ++ [now]) y cfg.oneSecondMs ≤ cfg.oneSecondLimit ∧
          windowCount (G ++ [now]) y cfg.twoMinuteMs ≤ cfg.twoMinuteLimit := by
        intro y
        constructor
        · rw [windowCount_append]
          by_cases hin : y ≤ now ∧ now < y + cfg.oneSecondMs
          · have hc1 : windowCount [now] y cfg.oneSecondMs ≤ 1 := by
              unfold windowCount
              exact le_trans (List.length_filter_le _ _) (by simp)
            have hc2 : windowCount G y cfg.oneSecondMs <
                cfg.oneSecondLimit :=
              lt_of_le_of_lt (windowCount_le_filter_length G y cfg.oneSecondMs now hin.2)
                hcond.1
            omega
          · have hc0 : windowCount [now] y cfg.oneSecondMs = 0 := by
              simp [windowCount, List.filter_cons, hin]
            rw [hc0]
            simpa using (hbound y).1
        · rw [windowCount_append]
          by_cases hin : y ≤ now ∧ now < y + cfg.twoMinuteMs
          · have hc1 : windowCount [now] y cfg.twoMinuteMs ≤ 1 := by
              unfold windowCount
              exact le_trans (List.length_filter_le _ _) (by simp)
            have hc2 : windowCount G y cfg.twoMinuteMs < cfg.twoMinuteLimit :=
              lt_of_le_of_lt (windowCount_le_filter_length G y cfg.twoMinuteMs now hin.2)
                hcond.2
            omega
          · have hc0 : windowCount [now] y cfg.twoMinuteMs = 0 := by
              simp [windowCount, List.filter_cons, hin]
            rw [hc0]
            simpa using (hbound y).2
      have hrec := ih now (G ++ [now])
        { oneSecondWindow := G.filter (fun g => decide (now < g + cfg.oneSecondMs)) ++ [now],
          twoMinuteWindow := G.filter (fun g => decide (now < g + cfg.twoMinuteMs)) ++ [now] }
        hrest hpw' hG' (by rw [hfil1]) (by rw [hfil2]) hbound' x
      have hrun : (runLimiter cfg s (now :: rest)).2 =
          now :: (runLimiter cfg
            { oneSecondWindow := G.filter (fun g => decide (now < g + cfg.oneSecondMs)) ++ [now],
              twoMinuteWindow := G.filter (fun g => decide (now < g + cfg.twoMinuteMs)) ++ [now] }
            rest).2 := by
        rw [runLimiter_cons, htry]
      rw [hrun]
      have happ : G ++ now :: (runLimiter cfg
            { oneSecondWindow := G.filter (fun g => decide (now < g + cfg.oneSecondMs)) ++ [now],
              twoMinuteWindow := G.filter (fun g => decide (now < g + cfg.twoMinuteMs)) ++ [now] }
            rest).2 =
          (G ++ [now]) ++ (runLimiter cfg
            { oneSecondWindow := G.filter (fun g => decide (now < g + cfg.oneSecondMs)) ++ [now],
              twoMinuteWindow := G.filter (fun g => decide (now < g + cfg.twoMinuteMs)) ++ [now] }
            rest).2 := by
        simp
      rw [happ]
      exact hrec
    · have htry : tryAcquire cfg s now = none := by
        unfold tryAcquire
        rw [hprune]
        exact if_neg hcond
      rw [runLimiter_cons, htry]
      exact ih now G (prune cfg now s) hrest hpw hlenow
        (by rw [hprune]) (by rw [hprune]) (fun y => hbound y) x

/-- C1: for the bulk-scrape limiter (20 calls per 1000 ms and 100 calls per
120000 ms), over every serialized sequence of acquire-loop iterations at
nondecreasing clock readings (the JavaScript event loop serializes all
concurrent `acquire()` callers), every sliding 1-second window holds at most
20 granted timestamps and every sliding 2-minute window at most 100. -/
theorem rate_limiter_sliding_window_safety (attempts : List Nat)
    (hchain : List.Chain (· ≤ ·) 0 attempts) (x : Nat) :
    windowCount (grantsOf scrapeLimiterConfig attempts) x 1000 ≤ 20 ∧
    windowCount (grantsOf scrapeLimiterConfig attempts) x 120000 ≤ 100 := by
  have h := runLimiter_windows_bounded scrapeLimiterConfig (by decide) (by decide)
    attempts 0 [] { oneSecondWindow := [], twoMinuteWindow := [] }
    hchain List.Pairwise.nil (by simp) rfl rfl
    (fun y => by constructor <;> simp [windowCount]) x
  simpa [grantsOf] using h

/-- Witness for the C1 theorem: 25 concurrent acquire iterations at time 0
grant at most 20 timestamps into the 1-second window starting at 0. -/
theorem rate_limiter_sliding_window_safety_witness :
    windowCount (grantsOf scrapeLimiterConfig (List.replicate 25 0)) 0 1000 ≤ 20 ∧
    windowCount (grantsOf scrapeLimiterConfig (List.replicate 25 0)) 0 120000 ≤ 100 :=
  rate_limiter_sliding_window_safety (List.replicate 25 0)
    (by
      have h : ∀ m : Nat, List.Chain (· ≤ ·) 0 (List.replicate m 0) := by
        intro m
        induction m with
        | zero => exact List.Chain.nil
        | succ m ihm =>
          rw [List.replicate_succ]
          exact List.Chain.cons (le_refl 0) ihm
      exact h 25) 0

/-- C8: finalizing the (top, Garen, Darius) bucket built from exactly three
matches with gold differentials +300, -100, -200 and outcomes win/win/loss
yields games = 3, winRate = 0.667 (wins/games rounded to 3 decimals), and
goldDiff15 = 0 (summed differential over game count, rounded to the nearest
integer). -/
theorem finalize_three_match_scenario :
    (jsGet (runMatches "25.1" "15.1" lanesAll [] scenarioMatches)
        { patch := "25.1", lane := .top, player := "Garen", enemy := "Darius" }).map
      (fun b => ((finalizeBucket "25.1" "2026-01-01T00:00:00.000Z" b).games,
                 (finalizeBucket "25.1" "2026-01-01T00:00:00.000Z" b).winRate,
                 (finalizeBucket "25.1" "2026-01-01T00:00:00.000Z" b).goldDiff15)) =
      some (3, 667/1000, 0) := by
  have hb : jsGet (runMatches "25.1" "15.1" lanesAll [] scenarioMatches)
      { patch := "25.1", lane := .top, player := "Garen", enemy := "Darius" } =
      some { games := 3, wins := 2, totalGoldDiff15 := 0, pre6Kills := 0, pre6Deaths := 0,
             runes := [(8010, 3)], items := [(3074, 3)] } := by decide
  rw [hb, Option.map_some']
  norm_num [finalizeBucket, round3, round_eq]

/-- C7: applying the aggregator to one match whose only eligible lane pairing
is champion `A` versus champion `B` with the TOP role tag, where `A` wins,
changes exactly two bucket entries: (patch, top, A, B) gains games+1 and
wins+1, (patch, top, B, A) gains games+1 and wins+0, and every other key is
untouched. -/
theorem aggregator_symmetry_single_match (A B : String) (m₀ : BucketMap)
    (hA : normalizeChampionName A = A) (hB : normalizeChampionName B = B)
    (hA0 : A ≠ "") (hB0 : B ≠ "") (hAB : A ≠ B) :
    (bucketAt (processMatch "25.1" "15.1" lanesAll m₀ (matchC7 A B))
        ⟨"25.1", .top, A, B⟩).games = (bucketAt m₀ ⟨"25.1", .top, A, B⟩).games + 1 ∧
    (bucketAt (processMatch "25.1" "15.1" lanesAll m₀ (matchC7 A B))
        ⟨"25.1", .top, A, B⟩).wins = (bucketAt m₀ ⟨"25.1", .top, A, B⟩).wins + 1 ∧
    (bucketAt (processMatch "25.1" "15.1" lanesAll m₀ (matchC7 A B))
        ⟨"25.1", .top, B, A⟩).games = (bucketAt m₀ ⟨"25.1", .top, B, A⟩).games + 1 ∧
    (bucketAt (processMatch "25.1" "15.1" lanesAll m₀ (matchC7 A B))
        ⟨"25.1", .top, B, A⟩).wins = (bucketAt m₀ ⟨"25.1", .top, B, A⟩).wins ∧
    (∀ k, k ≠ ⟨"25.1", .top, A, B⟩ → k ≠ ⟨"25.1", .top, B, A⟩ →
      jsGet (processMatch "25.1" "15.1" lanesAll m₀ (matchC7 A B)) k = jsGet m₀ k) := by
  have hpm : processMatch "25.1" "15.1" lanesAll m₀ (matchC7 A B) =
      applySide "25.1" [(1, 1325), (2, 1025)] [(1, 1)]
        (applySide "25.1" [(1, 1325), (2, 1025)] [(1, 1)] m₀ .top (participantA A)
          (participantB B) A B)
        .top (participantB B) (participantA A) B A := by
    unfold processMatch
    simp only [matchC7, lanesAll, List.foldl_cons, List.foldl_nil]
    simp [processLane, participantA, participantB, RIOT_TEAM_POSITION_BY_LANE,
      pre6KillsByParticipant, increment, jsGet, jsSet, hA, hB, hA0, hB0, hAB,
      List.find?, List.filter]
    intro h
    exact absurd h (by decide)
  rw [hpm]
  refine ⟨?_, ?_, ?_, ?_, ?_⟩
  · simp [applySide, bucketAt, participantA, participantB, jsGet_jsSet_self,
      BucketKey.mk.injEq, hAB, Ne.symm hAB, jsGet_jsSet_ne, jsGet]
  · simp [applySide, bucketAt, participantA, participantB, jsGet_jsSet_self,
      BucketKey.mk.injEq, hAB, Ne.symm hAB, jsGet_jsSet_ne, jsGet]
  · simp [applySide, bucketAt, participantA, participantB, jsGet_jsSet_self,
      BucketKey.mk.injEq, hAB, Ne.symm hAB, jsGet_jsSet_ne, jsGet]
  · simp [applySide, bucketAt, participantA, participantB, jsGet_jsSet_self,
      BucketKey.mk.injEq, hAB, Ne.symm hAB, jsGet_jsSet_ne, jsGet]
  · intro k hk1 hk2
    simp [applySide, jsGet_jsSet_ne _ _ _ _ hk2, jsGet_jsSet_ne _ _ _ _ hk1]

/-- Witness for the C7 theorem: the synthetic Garen-beats-Darius top-lane
match applied to the empty bucket map. -/
theorem aggregator_symmetry_single_match_witness :
    (bucketAt (processMatch "25.1" "15.1" lanesAll [] (matchC7 "Garen" "Darius"))
        ⟨"25.1", .top, "Garen", "Darius"⟩).games =
      (bucketAt ([] : BucketMap) ⟨"25.1", .top, "Garen", "Darius"⟩).games + 1 ∧
    (bucketAt (processMatch "25.1" "15.1" lanesAll [] (matchC7 "Garen" "Darius"))
        ⟨"25.1", .top, "Garen", "Darius"⟩).wins =
      (bucketAt ([] : BucketMap) ⟨"25.1", .top, "Garen", "Darius"⟩).wins + 1 ∧
    (bucketAt (processMatch "25.1" "15.1" lanesAll [] (matchC7 "Garen" "Darius"))
        ⟨"25.1", .top, "Darius", "Garen"⟩).games =
      (bucketAt ([] : BucketMap) ⟨"25.1", .top, "Darius", "Garen"⟩).games + 1 ∧
    (bucketAt (processMatch "25.1" "15.1" lanesAll [] (matchC7 "Garen" "Darius"))
        ⟨"25.1", .top, "Darius", "Garen"⟩).wins =
      (bucketAt ([] : BucketMap) ⟨"25.1", .top, "Darius", "Garen"⟩).wins ∧
    (∀ k, k ≠ ⟨"25.1", .top, "Garen", "Darius"⟩ → k ≠ ⟨"25.1", .top, "Darius", "Garen"⟩ →
      jsGet (processMatch "25.1" "15.1" lanesAll [] (matchC7 "Garen" "Darius")) k =
        jsGet ([] : BucketMap) k) :=
  aggregator_symmetry_single_match "Garen" "Darius" []
    (by decide) (by decide) (by decide) (by decide) (by decide)

theorem applySide_get_self (patch : String) (pf : List (Int × Int)) (kills : List (Int × Nat))
    (m : BucketMap) (lane : Lane) (P E : Participant) (nameP nameE : String) :
    ∃ b, jsGet (applySide patch pf kills m lane P E nameP nameE)
        ⟨patch, lane, nameP, nameE⟩ = some b ∧
      b.games = (bucketAt m ⟨patch, lane, nameP, nameE⟩).games + 1 ∧
      b.pre6Kills = (bucketAt m ⟨patch, lane, nameP, nameE⟩).pre6Kills +
        (jsGet kills P.participantId).getD 0 ∧
      b.pre6Deaths = (bucketAt m ⟨patch, lane, nameP, nameE⟩).pre6Deaths +
        (jsGet kills E.participantId).getD 0 := by
  unfold applySide
  rw [jsGet_jsSet_self]
  refine ⟨_, rfl, ?_, ?_, ?_⟩ <;>
  · simp only [bucketAt]
    repeat' split
    all_goals rfl

theorem applySide_get_ne (patch : String) (pf : List (Int × Int)) (kills : List (Int × Nat))
    (m : BucketMap) (lane : Lane) (P E : Participant) (nameP nameE : String)
    (k : BucketKey) (hk : k ≠ ⟨patch, lane, nameP, nameE⟩) :
    jsGet (applySide patch pf kills m lane P E nameP nameE) k = jsGet m k := by
  unfold applySide
  rw [jsGet_jsSet_ne _ _ _ _ hk]

theorem mirrorKey_invol (k : BucketKey) : mirrorKey (mirrorKey k) = k := rfl

theorem mirrorInv_applyBoth (patch : String) (pf : List (Int × Int))
    (kills : List (Int × Nat)) (m : BucketMap) (lane : Lane) (L R : Participant)
    (nameL nameR : String) (hne : nameL ≠ nameR) (hinv : MirrorInv m) :
    MirrorInv (applySide patch pf kills
      (applySide patch pf kills m lane L R nameL nameR) lane R L nameR nameL) := by
  intro k c hc
  have hkne : (⟨patch, lane, nameR, nameL⟩ : BucketKey) ≠ ⟨patch, lane, nameL, nameR⟩ := by
    intro h
    exact hne (congrArg BucketKey.player h).symm
  obtain ⟨bLR, hbLR, hgLR, hkiLR, hdLR⟩ :=
    applySide_get_self patch pf kills m lane L R nameL nameR
  obtain ⟨bRL, hbRL, hgRL, hkiRL, hdRL⟩ :=
    applySide_get_self patch pf kills
      (applySide patch pf kills m lane L R nameL nameR) lane R L nameR nameL
  have hb0' : bucketAt (applySide patch pf kills m lane L R nameL nameR)
      ⟨patch, lane, nameR, nameL⟩ = bucketAt m ⟨patch, lane, nameR, nameL⟩ := by
    simp only [bucketAt, applySide_get_ne patch pf kills m lane L R nameL nameR _ hkne]
  have hm2LR : jsGet (applySide patch pf kills
      (applySide patch pf kills m lane L R nameL nameR) lane R L nameR nameL)
      ⟨patch, lane, nameL, nameR⟩ = some bLR := by
    rw [applySide_get_ne patch pf kills _ lane R L nameR nameL _ (Ne.symm hkne), hbLR]
  have hbase : (bucketAt m ⟨patch, lane, nameL, nameR⟩).games =
        (bucketAt m ⟨patch, lane, nameR, nameL⟩).games ∧
      (bucketAt m ⟨patch, lane, nameL, nameR⟩).pre6Deaths =
        (bucketAt m ⟨patch, lane, nameR, nameL⟩).pre6Kills ∧
      (bucketAt m ⟨patch, lane, nameL, nameR⟩).pre6Kills =
        (bucketAt m ⟨patch, lane, nameR, nameL⟩).pre6Deaths := by
    cases hLR : jsGet m ⟨patch, lane, nameL, nameR⟩ with
    | some b =>
      rcases hinv _ b hLR with ⟨b', hb', h1, h2, h3⟩
      simp only [bucketAt, hLR]
      rw [show mirrorKey ⟨patch, lane, nameL, nameR⟩ =
        (⟨patch, lane, nameR, nameL⟩ : BucketKey) from rfl] at hb'
      simp [hb', h1, h2, h3]
    | none =>
      have hRLnone : jsGet m ⟨patch, lane, nameR, nameL⟩ = none := by
        cases hRL : jsGet m ⟨patch, lane, nameR, nameL⟩ with
        | none => rfl
        | some b' =>
          rcases hinv _ b' hRL with ⟨b'', hb'', _⟩
          rw [show mirrorKey ⟨patch, lane, nameR, nameL⟩ =
            (⟨patch, lane, nameL, nameR⟩ : BucketKey) from rfl, hLR] at hb''
          exact absurd hb'' (by simp)
      simp [bucketAt, hLR, hRLnone, emptyBucket]
  by_cases hk1 : k = ⟨patch, lane, nameL, nameR⟩
  · subst hk1
    rw [hm2LR] at hc
    obtain rfl : bLR = c := Option.some.inj hc
    refine ⟨bRL, ?_, ?_, ?_, ?_⟩
    · rw [show mirrorKey ⟨patch, lane, nameL, nameR⟩ =
        (⟨patch, lane, nameR, nameL⟩ : BucketKey) from rfl]
      exact hbRL
    · rw [hgLR, hgRL, hb0', hbase.1]
    · rw [hdLR, hkiRL, hb0', hbase.2.1]
    · rw [hkiLR, hdRL, hb0', hbase.2.2]
  · by_cases hk2 : k = ⟨patch, lane, nameR, nameL⟩
    · subst hk2
      rw [hbRL] at hc
      obtain rfl : bRL = c := Option.some.inj hc
      refine ⟨bLR, ?_, ?_, ?_, ?_⟩
      · rw [show mirrorKey ⟨patch, lane, nameR, nameL⟩ =
          (⟨patch, lane, nameL, nameR⟩ : BucketKey) from rfl]
        exact hm2LR
      · rw [hgRL, hgLR, hb0', hbase.1]
      · rw [hdRL, hkiLR, hb0', hbase.2.2]
      · rw [hkiRL, hdLR, hb0', hbase.2.1]
    · have hget : jsGet (applySide patch pf kills
          (applySide patch pf kills m lane L R nameL nameR) lane R L nameR nameL) k =
          jsGet m k := by
        rw [applySide_get_ne patch pf kills _ lane R L nameR nameL k hk2,
          applySide_get_ne patch pf kills m lane L R nameL nameR k hk1]
      rw [hget] at hc
      have hmk1 : mirrorKey k ≠ ⟨patch, lane, nameL, nameR⟩ := by
        intro h
        apply hk2
        have := congrArg mirrorKey h
        rw [mirrorKey_invol] at this
        exact this
      have hmk2 : mirrorKey k ≠ ⟨patch, lane, nameR, nameL⟩ := by
        intro h
        apply hk1
        have := congrArg mirrorKey h
        rw [mirrorKey_invol] at this
        exact this
      rcases hinv k c hc with ⟨b', hb', h1, h2, h3⟩
      refine ⟨b', ?_, h1, h2, h3⟩
      rw [applySide_get_ne patch pf kills _ lane R L nameR nameL _ hmk2,
        applySide_get_ne patch pf kills m lane L R nameL nameR _ hmk1]
      exact hb'

theorem mirrorInv_processLane (patch : String) (pf : List (Int × Int))
    (kills : List (Int × Nat)) (parts : List Participant) (m : BucketMap) (lane : Lane)
    (hinv : MirrorInv m) : MirrorInv (processLane patch pf kills parts m lane) := by
  unfold processLane
  dsimp only
  split
  · split_ifs with hguard
    · exact hinv
    · exact mirrorInv_applyBoth patch pf kills m lane _ _ _ _
        (fun h => hguard (Or.inr (Or.inr h))) hinv
  · exact hinv

theorem mirrorInv_foldl_lanes (patch : String) (pf : List (Int × Int))
    (kills : List (Int × Nat)) (parts : List Participant) :
    ∀ (ls : List Lane) (m : BucketMap), MirrorInv m →
      MirrorInv (ls.foldl (processLane patch pf kills parts) m) := by
  intro ls
  induction ls with
  | nil => intro m h; exact h
  | cons l t iht =>
    intro m h
    exact iht _ (mirrorInv_processLane patch pf kills parts m l h)

theorem mirrorInv_processMatch (patch head : String) (lanes : List Lane)
    (m : BucketMap) (md : MatchData) (hinv : MirrorInv m) :
    MirrorInv (processMatch patch head lanes m md) := by
  unfold processMatch
  split
  · exact hinv
  · exact mirrorInv_foldl_lanes patch _ _ _ lanes m hinv

theorem mirrorInv_runMatches (patch head : String) (lanes : List Lane) :
    ∀ (ms : List MatchData) (m : BucketMap), MirrorInv m →
      MirrorInv (runMatches patch head lanes m ms) := by
  intro ms
  induction ms with
  | nil => intro m h; exact h
  | cons md rest ih =>
    intro m h
    exact ih _ (mirrorInv_processMatch patch head lanes m md h)

/-- C10: after processing any number of matches from the empty bucket map,
every directed key (patch, lane, A, B) coexists with its mirror
(patch, lane, B, A) with the same games count, and the pre-6 deaths of the
(A, B) bucket equal the pre-6 kills of the (B, A) bucket, since a side's
death count is read from `pre6KillsByParticipant` at the lane opponent's
participant id. -/
theorem aggregator_mirror_invariant (patch head : String) (lanes : List Lane)
    (ms : List MatchData) (k : BucketKey) (b : AggregationBucket)
    (h : jsGet (runMatches patch head lanes [] ms) k = some b) :
    ∃ b', jsGet (runMatches patch head lanes [] ms) (mirrorKey k) = some b' ∧
      b.games = b'.games ∧ b.pre6Deaths = b'.pre6Kills := by
  have hinv := mirrorInv_runMatches patch head lanes ms []
    (fun _ _ h0 => Option.noConfusion h0)
  rcases hinv k b h with ⟨b', h1, h2, h3, _⟩
  exact ⟨b', h1, h2, h3⟩

/-- Witness for the C10 theorem: the mirror bucket of the concrete
Garen-versus-Darius run. -/
theorem aggregator_mirror_invariant_witness :
    ∃ b', jsGet (runMatches "25.1" "15.1" lanesAll [] [matchC7 "Garen" "Darius"])
        (mirrorKey ⟨"25.1", .top, "Garen", "Darius"⟩) = some b' ∧
      ({ games := 1, wins := 1, totalGoldDiff15 := 300, pre6Kills := 1, pre6Deaths := 0,
         runes := [(8010, 1)], items := [(3074, 1)] } : AggregationBucket).games = b'.games ∧
      ({ games := 1, wins := 1, totalGoldDiff15 := 300, pre6Kills := 1, pre6Deaths := 0,
         runes := [(8010, 1)], items := [(3074, 1)] } : AggregationBucket).pre6Deaths =
        b'.pre6Kills :=
  aggregator_mirror_invariant "25.1" "15.1" lanesAll [matchC7 "Garen" "Darius"]
    ⟨"25.1", .top, "Garen", "Darius"⟩
    { games := 1, wins := 1, totalGoldDiff15 := 300, pre6Kills := 1, pre6Deaths := 0,
      runes := [(8010, 1)], items := [(3074, 1)] }
    (by decide)

theorem jsGet_mem [DecidableEq α] (l : List (α × β)) (k : α) (v : β)
    (h : jsGet l k = some v) : (k, v) ∈ l := by
  induction l with
  | nil => exact Option.noConfusion h
  | cons e rest ih =>
    obtain ⟨ke, ve⟩ := e
    by_cases hk : ke = k
    · subst hk
      simp [jsGet] at h
      simp [h]
    · simp [jsGet, hk] at h
      exact List.mem_cons_of_mem _ (ih h)

theorem mem_jsSet [DecidableEq α] (l : List (α × β)) (k : α) (v : β) (e : α × β)
    (h : e ∈ jsSet l k v) : e ∈ l ∨ e = (k, v) := by
  induction l with
  | nil =>
    simp [jsSet] at h
    exact Or.inr h
  | cons e0 rest ih =>
    obtain ⟨ke, ve⟩ := e0
    by_cases hk : ke = k
    · subst hk
      rw [jsSet, if_pos rfl] at h
      rcases List.mem_cons.mp h with h | h
      · exact Or.inr h
      · exact Or.inl (List.mem_cons_of_mem _ h)
    · rw [jsSet, if_neg hk] at h
      rcases List.mem_cons.mp h with h | h
      · exact Or.inl (by simp [h])
      · rcases ih h with h' | h'
        · exact Or.inl (List.mem_cons_of_mem _ h')
        · exact Or.inr h'

theorem mem_jsKeys_jsSet [DecidableEq α] (l : List (α × β)) (k a : α) (v : β) :
    a ∈ jsKeys (jsSet l k v) ↔ a ∈ jsKeys l ∨ a = k := by
  induction l with
  | nil => simp [jsSet, jsKeys]
  | cons e rest ih =>
    obtain ⟨ke, ve⟩ := e
    by_cases hk : ke = k
    · subst hk
      simp [jsSet, jsKeys]
      tauto
    · simp [jsSet, jsKeys, hk] at ih ⊢
      tauto

theorem nodupKeys_jsSet [DecidableEq α] (l : List (α × β)) (k : α) (v : β)
    (h : NodupKeys l) : NodupKeys (jsSet l k v) := by
  induction l with
  | nil => simp [jsSet, NodupKeys, jsKeys]
  | cons e rest ih =>
    obtain ⟨ke, ve⟩ := e
    simp only [NodupKeys, jsKeys, List.map_cons, List.nodup_cons] at h
    by_cases hk : ke = k
    · subst hk
      simpa [jsSet, NodupKeys, jsKeys] using h
    · have h3 : NodupKeys (jsSet rest k v) := ih h.2
      have h4 : ke ∉ jsKeys (jsSet rest k v) := by
        intro hmem
        rcases (mem_jsKeys_jsSet rest k ke v).mp hmem with hm | hm
        · exact h.1 (by simpa [jsKeys] using hm)
        · exact hk hm
      simp only [jsSet, if_neg hk, NodupKeys, jsKeys, List.map_cons, List.nodup_cons]
      exact ⟨by simpa [jsKeys] using h4, h3⟩

theorem jsSet_eq_append [DecidableEq α] (l : List (α × β)) (k : α) (v : β)
    (h : k ∉ jsKeys l) : jsSet l k v = l ++ [(k, v)] := by
  induction l with
  | nil => rfl
  | cons e rest ih =>
    obtain ⟨ke, ve⟩ := e
    have hk : ¬ ke = k := by
      intro hkk
      exact h (by simp [jsKeys, hkk])
    have h' : k ∉ jsKeys rest := by
      intro hm
      exact h (by simp [jsKeys]; exact Or.inr (by simpa [jsKeys] using hm))
    simp [jsSet, hk, ih h']

theorem foldl_jsSet_append [DecidableEq α] :
    ∀ (l acc : List (α × β)), (jsKeys acc ++ jsKeys l).Nodup →
      l.foldl (fun m e => jsSet m e.1 e.2) acc = acc ++ l := by
  intro l
  induction l with
  | nil => intro acc _; simp
  | cons e t ih =>
    intro acc hnd
    obtain ⟨k, v⟩ := e
    have hkacc : k ∉ jsKeys acc := by
      intro hm
      have : (jsKeys acc ++ jsKeys ((k, v) :: t)).Nodup := hnd
      rw [List.nodup_append] at this
      exact this.2.2 hm (by simp [jsKeys])
    have hstep : jsSet acc k v = acc ++ [(k, v)] := jsSet_eq_append acc k v hkacc
    have hnd' : (jsKeys (acc ++ [(k, v)]) ++ jsKeys t).Nodup := by
      have : jsKeys (acc ++ [(k, v)]) ++ jsKeys t = jsKeys acc ++ jsKeys ((k, v) :: t) := by
        simp [jsKeys]
      rw [this]
      exact hnd
    calc ((k, v) :: t).foldl (fun m e => jsSet m e.1 e.2) acc
        = t.foldl (fun m e => jsSet m e.1 e.2) (acc ++ [(k, v)]) := by
          rw [List.foldl_cons, hstep]
      _ = (acc ++ [(k, v)]) ++ t := ih (acc ++ [(k, v)]) hnd'
      _ = acc ++ (k, v) :: t := by simp

theorem mapFromEntries_eq_self [DecidableEq α] (l : List (α × β)) (h : NodupKeys l) :
    mapFromEntries l = l := by
  unfold mapFromEntries
  have := foldl_jsSet_append l [] (by simpa [jsKeys] using h)
  simpa using this

theorem bucketWF_empty : BucketWF emptyBucket := by
  constructor <;> simp [emptyBucket, NodupKeys, jsKeys]

theorem bucketWF_bucketAt (m : BucketMap) (k : BucketKey) (hm : MapWF m) :
    BucketWF (bucketAt m k) := by
  unfold bucketAt
  cases hg : jsGet m k with
  | none => exact bucketWF_empty
  | some b => exact hm.2 (k, b) (jsGet_mem m k b hg)

theorem mapWF_jsSet (m : BucketMap) (k : BucketKey) (b : AggregationBucket)
    (hm : MapWF m) (hb : BucketWF b) : MapWF (jsSet m k b) := by
  refine ⟨nodupKeys_jsSet m k b hm.1, ?_⟩
  intro e he
  rcases mem_jsSet m k b e he with h | h
  · exact hm.2 e h
  · rw [h]
    exact hb

theorem nodupKeys_increment [DecidableEq α] (m : List (α × Nat)) (k : α)
    (h : NodupKeys m) : NodupKeys (increment m k) :=
  nodupKeys_jsSet m k _ h

theorem mapWF_applySide (patch : String) (pf : List (Int × Int)) (kills : List (Int × Nat))
    (m : BucketMap) (lane : Lane) (P E : Participant) (nameP nameE : String)
    (hm : MapWF m) : MapWF (applySide patch pf kills m lane P E nameP nameE) := by
  have hb0 := bucketWF_bucketAt m ⟨patch, lane, nameP, nameE⟩ hm
  unfold applySide
  apply mapWF_jsSet _ _ _ hm
  rcases hb0 with ⟨hr, hi⟩
  constructor
  · dsimp only [bucketAt] at hr
    repeat' split
    all_goals
      first
      | exact hr
      | exact nodupKeys_increment _ _ hr
  · dsimp only [bucketAt] at hi
    repeat' split
    all_goals
      first
      | exact hi
      | exact nodupKeys_increment _ _ hi

theorem mapWF_processLane (patch : String) (pf : List (Int × Int))
    (kills : List (Int × Nat)) (parts : List Participant) (m : BucketMap) (lane : Lane)
    (hm : MapWF m) : MapWF (processLane patch pf kills parts m lane) := by
  unfold processLane
  dsimp only
  split
  · split_ifs
    · exact hm
    · exact mapWF_applySide patch pf kills _ lane _ _ _ _
        (mapWF_applySide patch pf kills m lane _ _ _ _ hm)
  · exact hm

theorem mapWF_processMatch (patch head : String) (lanes : List Lane)
    (m : BucketMap) (md : MatchData) (hm : MapWF m) :
    MapWF (processMatch patch head lanes m md) := by
  unfold processMatch
  split
  · exact hm
  · have haux : ∀ (ls : List Lane) (mm : BucketMap), MapWF mm →
        MapWF (ls.foldl (processLane patch
          (match md.frames.find? (fun f => decide ((900000 : Int) ≤ f.timestamp)) with
            | some f => f.participantFrames
            | none => [])
          (pre6KillsByParticipant md.frames) md.participants) mm) := by
      intro ls
      induction ls with
      | nil => intro mm h; exact h
      | cons lh lt iht =>
        intro mm h
        exact iht _ (mapWF_processLane patch _ _ _ mm lh h)
    exact haux lanes m hm

theorem mapWF_runMatches (patch head : String) (lanes : List Lane) :
    ∀ (ms : List MatchData) (m : BucketMap), MapWF m →
      MapWF (runMatches patch head lanes m ms) := by
  intro ms
  induction ms with
  | nil => intro m h; exact h
  | cons md rest ih =>
    intro m h
    exact ih _ (mapWF_processMatch patch head lanes m md h)

theorem mapWF_empty : MapWF [] := by
  constructor
  · simp [NodupKeys, jsKeys]
  · intro e he
    simp at he

theorem deserialize_serialize (m : BucketMap) (hwf : MapWF m) :
    deserializeBuckets (serializeBuckets m) = m := by
  unfold deserializeBuckets serializeBuckets
  rw [List.foldl_map]
  have haux : ∀ (l acc : List (BucketKey × AggregationBucket)),
      (jsKeys acc ++ jsKeys l).Nodup → (∀ e ∈ l, BucketWF e.2) →
      l.foldl (fun acc e => jsSet acc e.1
        { games := e.2.games, wins := e.2.wins, totalGoldDiff15 := e.2.totalGoldDiff15,
          pre6Kills := e.2.pre6Kills, pre6Deaths := e.2.pre6Deaths,
          runes := mapFromEntries e.2.runes, items := mapFromEntries e.2.items }) acc =
        acc ++ l := by
    intro l
    induction l with
    | nil => intro acc _ _; simp
    | cons e t ih =>
      intro acc hnd hwfl
      obtain ⟨k, b⟩ := e
      have hb : BucketWF b := hwfl (k, b) (by simp)
      have hbeq : AggregationBucket.mk b.games b.wins b.totalGoldDiff15 b.pre6Kills
          b.pre6Deaths (mapFromEntries b.runes) (mapFromEntries b.items) = b := by
        rw [mapFromEntries_eq_self b.runes hb.1, mapFromEntries_eq_self b.items hb.2]
      have hkacc : k ∉ jsKeys acc := by
        intro hmem
        rw [List.nodup_append] at hnd
        exact hnd.2.2 hmem (by simp [jsKeys])
      have hnd' : (jsKeys (acc ++ [(k, b)]) ++ jsKeys t).Nodup := by
        have heq : jsKeys (acc ++ [(k, b)]) ++ jsKeys t = jsKeys acc ++ jsKeys ((k, b) :: t) := by
          simp [jsKeys]
        rw [heq]
        exact hnd
      calc ((k, b) :: t).foldl _ acc
          = t.foldl _ (acc ++ [(k, b)]) := by
            rw [List.foldl_cons]
            dsimp only
            rw [hbeq, jsSet_eq_append acc k b hkacc]
        _ = (acc ++ [(k, b)]) ++ t :=
            ih (acc ++ [(k, b)]) hnd' (fun e he => hwfl e (List.mem_cons_of_mem _ he))
        _ = acc ++ (k, b) :: t := by simp
  have := haux m [] (by simpa [jsKeys] using hwf.1) hwf.2
  simpa using this

/-- C4: interrupting the processing phase after any number `k` of processed
matches, serializing the bucket map into the checkpoint and resuming from the
deserialized checkpoint over the remaining matches yields exactly the bucket
map of the uninterrupted run over the same match list. -/
theorem checkpoint_resume_bucket_equiv (patch head : String) (lanes : List Lane)
    (ms : List MatchData) (k : Nat) :
    runMatches patch head lanes
      (deserializeBuckets (serializeBuckets (runMatches patch head lanes [] (ms.take k))))
      (ms.drop k) = runMatches patch head lanes [] ms := by
  rw [deserialize_serialize _ (mapWF_runMatches patch head lanes (ms.take k) [] mapWF_empty)]
  unfold runMatches
  rw [← List.foldl_append, List.take_append_drop]
